import Mathlib

/-!
Verification of the psy-k repository (PSY-Q LIB/OBJ codec and linker-script
parser) against its natural-language specification.

The Rust sources are shallowly embedded: machine integers are `Nat` with
explicit masks/mod where overflow or truncation matters, byte buffers are
`List Nat`, fallible operations return `Option`.  Bitwise operators of the
source (`&`, `|`, `<<`, `>>`) are rendered with the corresponding `Nat`
bitwise operators (`&&&`, `|||`, `<<<`, `>>>`).
-/

namespace Psyx

/-! ## Arithmetic helpers for bit-field reasoning -/

/-! ## Timestamp codec (src/lib.rs, `FromPSYQTimestamp`)

The packed 32-bit timestamp: low 16 bits hold `year-1980` (bits 15..9),
`month` (bits 8..5), `day` (bits 4..0); high 16 bits hold `hour`
(bits 15..11), `minute` (bits 10..5) and `seconds/2` (bits 4..0). -/

structure DateFields where
  year : Nat
  month : Nat
  day : Nat
  deriving DecidableEq, Repr

structure TimeFields where
  hour : Nat
  minute : Nat
  second : Nat
  deriving DecidableEq, Repr

/-- Gregorian leap-year test, as used by chrono. -/
def isLeapYear (y : Nat) : Bool :=
  y % 4 == 0 && (y % 100 != 0 || y % 400 == 0)

/-- Days in a Gregorian month, as validated by chrono `NaiveDate::from_ymd_opt`. -/
def daysInMonth (y m : Nat) : Nat :=
  if m = 2 then (if isLeapYear y then 29 else 28)
  else if m = 4 ∨ m = 6 ∨ m = 9 ∨ m = 11 then 30
  else 31

/-- chrono `NaiveDate::from_ymd_opt`: accepts exactly the valid Gregorian dates. -/
def from_ymd_opt (y m d : Nat) : Option DateFields :=
  if 1 ≤ m ∧ m ≤ 12 ∧ 1 ≤ d ∧ d ≤ daysInMonth y m then some ⟨y, m, d⟩ else none

/-- chrono `NaiveTime::from_hms_opt`: hour below 24, minute and second below 60. -/
def from_hms_opt (h mi s : Nat) : Option TimeFields :=
  if h < 24 ∧ mi < 60 ∧ s < 60 then some ⟨h, mi, s⟩ else none

/-- `impl FromPSYQTimestamp for NaiveDate`, `from_psyq_timestamp`. -/
def date_from_psyq (t : Nat) : Option DateFields :=
  let date := t &&& 0xFFFF
  let year := ((date >>> 9) &&& 0x7F) + 1980
  let month := (date >>> 5) &&& 0xF
  let day := date &&& 0x1F
  from_ymd_opt year month day

/-- `impl FromPSYQTimestamp for NaiveDate`, `to_psyq_timestamp`.
A decoded date always has `year ≥ 1980`, so the `u32` wrap-around of
`year as u32 - 1980` never fires and truncated `Nat` subtraction is faithful. -/
def date_to_psyq (d : DateFields) : Nat :=
  let year := (d.year - 1980) &&& 0x7F
  let month := d.month &&& 0xF
  let day := d.day &&& 0x1F
  (year <<< 9) ||| (month <<< 5) ||| day

/-- `impl FromPSYQTimestamp for NaiveTime`, `from_psyq_timestamp`. -/
def time_from_psyq (t : Nat) : Option TimeFields :=
  let time := t >>> 16
  let hour := (time >>> 11) &&& 0x1F
  let minute := (time >>> 5) &&& 0x3F
  let second := (time &&& 0x1F) * 2
  from_hms_opt hour minute second

/-- `impl FromPSYQTimestamp for NaiveTime`, `to_psyq_timestamp`. -/
def time_to_psyq (tf : TimeFields) : Nat :=
  ((tf.hour &&& 0x1F) <<< 27) ||| ((tf.minute &&& 0x3F) <<< 21) ||| ((tf.second / 2) <<< 16)

/-- `impl FromPSYQTimestamp for NaiveDateTime`, `from_psyq_timestamp`. -/
def datetime_from_psyq (t : Nat) : Option (DateFields × TimeFields) := do
  let d ← date_from_psyq t
  let tf ← time_from_psyq t
  pure (d, tf)

/-- `impl FromPSYQTimestamp for NaiveDateTime`, `to_psyq_timestamp`. -/
def datetime_to_psyq (p : DateFields × TimeFields) : Nat :=
  date_to_psyq p.1 ||| time_to_psyq p.2

/-! ## Export entries and module metadata (src/lib.rs, `Export`, `ModuleMetadata`)

Strings are modelled as their UTF-8 byte sequences (`List Nat`). -/

/-- `struct Export { name_size: u8, name: Vec<u8> }`. -/
structure Export where
  name_size : Nat
  name : List Nat
  deriving DecidableEq, Repr

/-- `Export::new`: `name_size` is `name.len() as u8` (a truncating cast, i.e.
mod 256) while the stored vector is `truncate(u8::MAX)`, i.e. the first
255 bytes. -/
def Export.new (bytes : List Nat) : Export :=
  { name_size := bytes.length % 256, name := bytes.take 255 }

/-- `Export::empty`: the zero-length terminator entry. -/
def Export.empty : Export :=
  { name_size := 0, name := [] }

/-- `struct ModuleMetadata` (name, created, offset, size, exports). The 8-byte
name array is a byte list. -/
structure ModuleMetadata where
  name : List Nat
  created : Nat
  offset : Nat
  size : Nat
  exports : List Export
  deriving DecidableEq, Repr

/-- `ModuleMetadata::new_from_path`.  The filesystem boundary is made explicit:
`name` is the module name derived from the path, `created` the packed
timestamp, `objExports` the strings returned by `OBJ::exports`, and `objLen`
the byte length of the OBJ file at the path.  `offset` and `size` are `u32`
(4294967296 = 2^32), and `file_metadata.len() as u32` truncates. -/
def ModuleMetadata.new_from_path (name : List Nat) (created : Nat)
    (objExports : List (List Nat)) (objLen : Nat) : ModuleMetadata :=
  let exports := objExports.map Export.new ++ [Export.empty]
  let offset := (20 + (exports.map (fun e => 1 + e.name_size)).sum) % 4294967296
  let size := (offset + objLen % 4294967296) % 4294967296
  ⟨name, created, offset, size, exports⟩

/-! ## Module-name derivation (src/lib.rs, `path_to_module_name`)

The filesystem and text-segmentation boundary is made explicit: the input is
the sequence of grapheme clusters of the uppercased file stem
(`prefix.to_ascii_uppercase()`), each cluster given as its UTF-8 bytes, as
produced by the external `unicode_segmentation` collaborator
(`grapheme_indices` yields contiguous byte offsets, so a cluster's offset is
the total length of the clusters before it).  `to_ascii_uppercase` maps the
bytes a-z to A-Z and leaves every other byte unchanged, so `prefix.is_ascii()`
on the original stem equals all-bytes-below-128 of the uppercased bytes. -/

/-- The non-ASCII loop of `path_to_module_name`: starting at byte offset
`offset`, stop at the first cluster with `offset > 7 || offset + len > 8`,
otherwise record `size = offset + len` and continue. -/
def module_name_size (offset : Nat) : List (List Nat) → Nat
  | [] => offset
  | c :: cs =>
    if offset > 7 ∨ offset + c.length > 8 then offset
    else module_name_size (offset + c.length) cs

/-- `path_to_module_name` over the grapheme clusters of the uppercased stem:
an 8-byte array initialized to 0x20, with the copied prefix of the stem bytes
written over its front. -/
def path_to_module_name (clusters : List (List Nat)) : List Nat :=
  let bytes := clusters.flatten
  if bytes.all (fun b => decide (b < 128)) then
    bytes.take (min bytes.length 8) ++ List.replicate (8 - min bytes.length 8) 0x20
  else
    let size := module_name_size 0 clusters
    bytes.take size ++ List.replicate (8 - size) 0x20

/-- Modelled from the spec's words (§4.2), for the refinement comparison:
the clusters copied are those taken in order while the current offset plus
the next cluster's byte length is ≤ 8 (never splitting a cluster). -/
def spec_cluster_fit (offset : Nat) : List (List Nat) → List (List Nat)
  | [] => []
  | c :: cs =>
    if offset + c.length ≤ 8 then c :: spec_cluster_fit (offset + c.length) cs
    else []

/-- Modelled from the spec's words (§4.2): pure-ASCII stems copy the first
min(len, 8) bytes and pad with 0x20; other stems copy whole grapheme clusters
while they fit within 8 bytes and pad with 0x20. -/
def module_name_spec (clusters : List (List Nat)) : List Nat :=
  let bytes := clusters.flatten
  if bytes.all (fun b => decide (b < 128)) then
    bytes.take (min bytes.length 8) ++ List.replicate (8 - min bytes.length 8) 0x20
  else
    let copied := (spec_cluster_fit 0 clusters).flatten
    copied ++ List.replicate (8 - copied.length) 0x20

/-! ## OBJ binary codec (src/lib.rs, binrw-derived readers/writers)

The binrw derive is embedded at byte level: readers consume a `List Nat` of
bytes and return `Option (value × rest)`; writers emit bytes.  `#[brw(magic)]`
variant tags are read and written; note that `Dim`'s variants carry
`#[br(magic = ...)]` only, which in binrw applies to reading alone, so the
derived writer emits a `Dim` without its two magic bytes. -/

def readU8 : List Nat → Option (Nat × List Nat)
  | [] => none
  | b :: rest => some (b, rest)

def readU16 (bs : List Nat) : Option (Nat × List Nat) := do
  let (b0, bs) ← readU8 bs
  let (b1, bs) ← readU8 bs
  pure (b0 + 256 * b1, bs)

def readU32 (bs : List Nat) : Option (Nat × List Nat) := do
  let (b0, bs) ← readU8 bs
  let (b1, bs) ← readU8 bs
  let (b2, bs) ← readU8 bs
  let (b3, bs) ← readU8 bs
  pure (b0 + 256 * b1 + 65536 * b2 + 16777216 * b3, bs)

/-- `i32` read: the little-endian word interpreted in two's complement. -/
def readI32 (bs : List Nat) : Option (Int × List Nat) := do
  let (v, bs) ← readU32 bs
  if v < 2147483648 then pure ((v : Int), bs) else pure ((v : Int) - 4294967296, bs)

def readBytes (n : Nat) (bs : List Nat) : Option (List Nat × List Nat) :=
  if n ≤ bs.length then some (bs.take n, bs.drop n) else none

def writeU8 (v : Nat) : List Nat := [v % 256]

def writeU16 (v : Nat) : List Nat := [v % 256, v / 256 % 256]

def writeU32 (v : Nat) : List Nat :=
  [v % 256, v / 256 % 256, v / 65536 % 256, v / 16777216 % 256]

def writeI32 (v : Int) : List Nat := writeU32 (v % 4294967296).toNat

/-- `enum Expression` (tags in comments are the binrw magic bytes). -/
inductive Expression where
  | Constant (v : Nat)                         -- 0
  | SymbolAddressIndex (n : Nat)               -- 2
  | SectionAddressIndex (n : Nat)              -- 4
  | Bank (n : Nat)                             -- 6
  | SectOf (n : Nat)                           -- 8
  | Offset (n : Nat)                           -- 10
  | SectionStart (n : Nat)                     -- 12
  | GroupStart (n : Nat)                       -- 14
  | GroupOf (n : Nat)                          -- 16
  | Segment (n : Nat)                          -- 18
  | GroupOrg (n : Nat)                         -- 20
  | SectionEnd (n : Nat)                       -- 22
  | Equals (a b : Expression)                  -- 32
  | NotEquals (a b : Expression)               -- 34
  | LTE (a b : Expression)                     -- 36
  | LessThan (a b : Expression)                -- 38
  | GTE (a b : Expression)                     -- 40
  | GreaterThan (a b : Expression)             -- 42
  | Add (a b : Expression)                     -- 44
  | Subtract (a b : Expression)                -- 46
  | Multiply (a b : Expression)                -- 48
  | Divide (a b : Expression)                  -- 50
  | And (a b : Expression)                     -- 52
  | Or (a b : Expression)                      -- 54
  | XOR (a b : Expression)                     -- 56
  | LeftShift (a b : Expression)               -- 58
  | RightShift (a b : Expression)              -- 60
  | Mod (a b : Expression)                     -- 62
  | Dashes (a b : Expression)                  -- 64
  | Revword (a b : Expression)                 -- 66
  | Check0 (a b : Expression)                  -- 68
  | Check1 (a b : Expression)                  -- 70
  | BitRange (a b : Expression)                -- 72
  | ArshiftChk (a b : Expression)              -- 74
  deriving DecidableEq, Repr

/-- binrw-derived reader for `Expression`; `fuel` bounds the recursion (one
tag byte is consumed per node, so any fuel ≥ input length is enough). -/
def decodeExpression : Nat → List Nat → Option (Expression × List Nat)
  | 0, _ => none
  | fuel + 1, bs => do
    let (tag, bs) ← readU8 bs
    match tag with
    | 0 => do let (v, bs) ← readU32 bs; pure (.Constant v, bs)
    | 2 => do let (v, bs) ← readU16 bs; pure (.SymbolAddressIndex v, bs)
    | 4 => do let (v, bs) ← readU16 bs; pure (.SectionAddressIndex v, bs)
    | 6 => do let (v, bs) ← readU16 bs; pure (.Bank v, bs)
    | 8 => do let (v, bs) ← readU16 bs; pure (.SectOf v, bs)
    | 10 => do let (v, bs) ← readU16 bs; pure (.Offset v, bs)
    | 12 => do let (v, bs) ← readU16 bs; pure (.SectionStart v, bs)
    | 14 => do let (v, bs) ← readU16 bs; pure (.GroupStart v, bs)
    | 16 => do let (v, bs) ← readU16 bs; pure (.GroupOf v, bs)
    | 18 => do let (v, bs) ← readU16 bs; pure (.Segment v, bs)
    | 20 => do let (v, bs) ← readU16 bs; pure (.GroupOrg v, bs)
    | 22 => do let (v, bs) ← readU16 bs; pure (.SectionEnd v, bs)
    | 32 => do
      let (a, bs) ← decodeExpression fuel bs
      let (b, bs) ← decodeExpression fuel bs
      pure (.Equals a b, bs)
    | 34 => do
      let (a, bs) ← decodeExpression fuel bs
      let (b, bs) ← decodeExpression fuel bs
      pure (.NotEquals a b, bs)
    | 36 => do
      let (a, bs) ← decodeExpression fuel bs
      let (b, bs) ← decodeExpression fuel bs
      pure (.LTE a b, bs)
    | 38 => do
      let (a, bs) ← decodeExpression fuel bs
      let (b, bs) ← decodeExpression fuel bs
      pure (.LessThan a b, bs)
    | 40 => do
      let (a, bs) ← decodeExpression fuel bs
      let (b, bs) ← decodeExpression fuel bs
      pure (.GTE a b, bs)
    | 42 => do
      let (a, bs) ← decodeExpression fuel bs
      let (b, bs) ← decodeExpression fuel bs
      pure (.GreaterThan a b, bs)
    | 44 => do
      let (a, bs) ← decodeExpression fuel bs
      let (b, bs) ← decodeExpression fuel bs
      pure (.Add a b, bs)
    | 46 => do
      let (a, bs) ← decodeExpression fuel bs
      let (b, bs) ← decodeExpression fuel bs
      pure (.Subtract a b, bs)
    | 48 => do
      let (a, bs) ← decodeExpression fuel bs
      let (b, bs) ← decodeExpression fuel bs
      pure (.Multiply a b, bs)
    | 50 => do
      let (a, bs) ← decodeExpression fuel bs
      let (b, bs) ← decodeExpression fuel bs
      pure (.Divide a b, bs)
    | 52 => do
      let (a, bs) ← decodeExpression fuel bs
      let (b, bs) ← decodeExpression fuel bs
      pure (.And a b, bs)
    | 54 => do
      let (a, bs) ← decodeExpression fuel bs
      let (b, bs) ← decodeExpression fuel bs
      pure (.Or a b, bs)
    | 56 => do
      let (a, bs) ← decodeExpression fuel bs
      let (b, bs) ← decodeExpression fuel bs
      pure (.XOR a b, bs)
    | 58 => do
      let (a, bs) ← decodeExpression fuel bs
      let (b, bs) ← decodeExpression fuel bs
      pure (.LeftShift a b, bs)
    | 60 => do
      let (a, bs) ← decodeExpression fuel bs
      let (b, bs) ← decodeExpression fuel bs
      pure (.RightShift a b, bs)
    | 62 => do
      let (a, bs) ← decodeExpression fuel bs
      let (b, bs) ← decodeExpression fuel bs
      pure (.Mod a b, bs)
    | 64 => do
      let (a, bs) ← decodeExpression fuel bs
      let (b, bs) ← decodeExpression fuel bs
      pure (.Dashes a b, bs)
    | 66 => do
      let (a, bs) ← decodeExpression fuel bs
      let (b, bs) ← decodeExpression fuel bs
      pure (.Revword a b, bs)
    | 68 => do
      let (a, bs) ← decodeExpression fuel bs
      let (b, bs) ← decodeExpression fuel bs
      pure (.Check0 a b, bs)
    | 70 => do
      let (a, bs) ← decodeExpression fuel bs
      let (b, bs) ← decodeExpression fuel bs
      pure (.Check1 a b, bs)
    | 72 => do
      let (a, bs) ← decodeExpression fuel bs
      let (b, bs) ← decodeExpression fuel bs
      pure (.BitRange a b, bs)
    | 74 => do
      let (a, bs) ← decodeExpression fuel bs
      let (b, bs) ← decodeExpression fuel bs
      pure (.ArshiftChk a b, bs)
    | _ => none

/-- binrw-derived writer for `Expression`: the variant magic byte, then the
payload. -/
def encodeExpression : Expression → List Nat
  | .Constant v => 0 :: writeU32 v
  | .SymbolAddressIndex v => 2 :: writeU16 v
  | .SectionAddressIndex v => 4 :: writeU16 v
  | .Bank v => 6 :: writeU16 v
  | .SectOf v => 8 :: writeU16 v
  | .Offset v => 10 :: writeU16 v
  | .SectionStart v => 12 :: writeU16 v
  | .GroupStart v => 14 :: writeU16 v
  | .GroupOf v => 16 :: writeU16 v
  | .Segment v => 18 :: writeU16 v
  | .GroupOrg v => 20 :: writeU16 v
  | .SectionEnd v => 22 :: writeU16 v
  | .Equals a b => 32 :: (encodeExpression a ++ encodeExpression b)
  | .NotEquals a b => 34 :: (encodeExpression a ++ encodeExpression b)
  | .LTE a b => 36 :: (encodeExpression a ++ encodeExpression b)
  | .LessThan a b => 38 :: (encodeExpression a ++ encodeExpression b)
  | .GTE a b => 40 :: (encodeExpression a ++ encodeExpression b)
  | .GreaterThan a b => 42 :: (encodeExpression a ++ encodeExpression b)
  | .Add a b => 44 :: (encodeExpression a ++ encodeExpression b)
  | .Subtract a b => 46 :: (encodeExpression a ++ encodeExpression b)
  | .Multiply a b => 48 :: (encodeExpression a ++ encodeExpression b)
  | .Divide a b => 50 :: (encodeExpression a ++ encodeExpression b)
  | .And a b => 52 :: (encodeExpression a ++ encodeExpression b)
  | .Or a b => 54 :: (encodeExpression a ++ encodeExpression b)
  | .XOR a b => 56 :: (encodeExpression a ++ encodeExpression b)
  | .LeftShift a b => 58 :: (encodeExpression a ++ encodeExpression b)
  | .RightShift a b => 60 :: (encodeExpression a ++ encodeExpression b)
  | .Mod a b => 62 :: (encodeExpression a ++ encodeExpression b)
  | .Dashes a b => 64 :: (encodeExpression a ++ encodeExpression b)
  | .Revword a b => 66 :: (encodeExpression a ++ encodeExpression b)
  | .Check0 a b => 68 :: (encodeExpression a ++ encodeExpression b)
  | .Check1 a b => 70 :: (encodeExpression a ++ encodeExpression b)
  | .BitRange a b => 72 :: (encodeExpression a ++ encodeExpression b)
  | .ArshiftChk a b => 74 :: (encodeExpression a ++ encodeExpression b)

/-- `struct Code`. -/
structure Code where
  size : Nat
  code : List Nat
  deriving DecidableEq, Repr

/-- `struct SectionSwitch`. -/
structure SectionSwitch where
  id : Nat
  deriving DecidableEq, Repr

/-- `struct Patch`. -/
structure Patch where
  tag : Nat
  offset : Nat
  expression : Expression
  deriving DecidableEq, Repr

/-- `struct LNKHeader`. -/
structure LNKHeader where
  «section» : Nat
  group : Nat
  align : Nat
  type_name_size : Nat
  type_name : List Nat
  deriving DecidableEq, Repr

/-- `struct LocalSymbol`. -/
structure LocalSymbol where
  «section» : Nat
  offset : Nat
  name_size : Nat
  name : List Nat
  deriving DecidableEq, Repr

/-- `struct GroupSymbol`. -/
structure GroupSymbol where
  number : Nat
  sym_type : Nat
  name_size : Nat
  name : List Nat
  deriving DecidableEq, Repr

/-- `struct XDEF`. -/
structure XDEF where
  number : Nat
  «section» : Nat
  offset : Nat
  symbol_name_size : Nat
  symbol_name : List Nat
  deriving DecidableEq, Repr

/-- `struct XREF`. -/
structure XREF where
  number : Nat
  symbol_name_size : Nat
  symbol_name : List Nat
  deriving DecidableEq, Repr

/-- `struct Filename`. -/
structure Filename where
  number : Nat
  size : Nat
  name : List Nat
  deriving DecidableEq, Repr

/-- `struct SetMXInfo`. -/
structure SetMXInfo where
  offset : Nat
  value : Nat
  deriving DecidableEq, Repr

/-- `struct XBSS`. -/
structure XBSS where
  number : Nat
  «section» : Nat
  size : Nat
  name_size : Nat
  name : List Nat
  deriving DecidableEq, Repr

/-- `struct SetSLDLineNum`. -/
structure SetSLDLineNum where
  offset : Nat
  linenum : Nat
  deriving DecidableEq, Repr

/-- `struct SetSLDLineNumFile`. -/
structure SetSLDLineNumFile where
  offset : Nat
  linenum : Nat
  file : Nat
  deriving DecidableEq, Repr

/-- `struct FunctionStart` (`mask_offset` is `i32`). -/
structure FunctionStart where
  «section» : Nat
  offset : Nat
  file : Nat
  linenum : Nat
  frame_register : Nat
  frame_size : Nat
  return_pc_register : Nat
  mask : Nat
  mask_offset : Int
  name_size : Nat
  name : List Nat
  deriving DecidableEq, Repr

/-- `struct FunctionEnd`. -/
structure FunctionEnd where
  «section» : Nat
  offset : Nat
  linenum : Nat
  deriving DecidableEq, Repr

/-- `struct BlockStart`. -/
structure BlockStart where
  «section» : Nat
  offset : Nat
  linenum : Nat
  deriving DecidableEq, Repr

/-- `struct BlockEnd`. -/
structure BlockEnd where
  «section» : Nat
  offset : Nat
  linenum : Nat
  deriving DecidableEq, Repr

/-- `struct Def`. -/
structure Def where
  «section» : Nat
  value : Nat
  «class» : Nat
  def_type : Nat
  size : Nat
  name_size : Nat
  name : List Nat
  deriving DecidableEq, Repr

/-- `enum Dim` (read magic `0u16` for `None`, `1u16` for `Value`). -/
inductive Dim where
  | None
  | Value (v : Nat)
  deriving DecidableEq, Repr

/-- `struct Def2`. -/
structure Def2 where
  «section» : Nat
  value : Nat
  «class» : Nat
  def_type : Nat
  size : Nat
  dims : Dim
  tag_size : Nat
  tag : List Nat
  name_size : Nat
  name : List Nat
  deriving DecidableEq, Repr

/-- `enum Section` (tags in comments are the binrw magic bytes). -/
inductive Section where
  | NOP                                        -- 0
  | Code (c : Code)                            -- 2
  | RunAtOffset (a b : Nat)                    -- 4
  | SectionSwitch (s : SectionSwitch)          -- 6
  | BSS (size : Nat)                           -- 8
  | Patch (p : Patch)                          -- 10
  | XDEF (x : XDEF)                            -- 12
  | XREF (x : XREF)                            -- 14
  | LNKHeader (h : LNKHeader)                  -- 16
  | LocalSymbol (s : LocalSymbol)              -- 18
  | GroupSymbol (s : GroupSymbol)              -- 20
  | Filename (f : Filename)                    -- 28
  | SetMXInfo (s : SetMXInfo)                  -- 44
  | CPU (c : Nat)                              -- 46
  | XBSS (x : XBSS)                            -- 48
  | IncSLDLineNum (offset : Nat)               -- 50
  | IncSLDLineNumByte (offset delta : Nat)     -- 52
  | SetSLDLineNum (s : SetSLDLineNum)          -- 56
  | SetSLDLineNumFile (s : SetSLDLineNumFile)  -- 58
  | EndSLDInfo (offset : Nat)                  -- 60
  | FunctionStart (f : FunctionStart)          -- 74
  | FunctionEnd (f : FunctionEnd)              -- 76
  | BlockStart (b : BlockStart)                -- 78
  | BlockEnd (b : BlockEnd)                    -- 80
  | Def (d : Def)                              -- 82
  | Def2 (d : Def2)                            -- 84
  deriving DecidableEq, Repr

/-- Reader for `Dim`: a `u16` magic selects the variant. -/
def decodeDim (bs : List Nat) : Option (Dim × List Nat) := do
  let (m, bs) ← readU16 bs
  match m with
  | 0 => pure (Dim.None, bs)
  | 1 => do let (v, bs) ← readU32 bs; pure (Dim.Value v, bs)
  | _ => none

/-- Writer for `Dim`: the variants declare their magic with `#[br(magic = ...)]`
(not `#[brw(...)]`), which in binrw applies to reading only, so the derived
`BinWrite` emits the payload without the two magic bytes. -/
def encodeDim : Dim → List Nat
  | Dim.None => []
  | Dim.Value v => writeU32 v

/-- binrw-derived reader for `Section`: tag byte, then the variant payload
(`fuel` bounds the recursion of the embedded `Expression`). -/
def decodeSection (fuel : Nat) (bs : List Nat) : Option (Section × List Nat) := do
  let (tag, bs) ← readU8 bs
  match tag with
  | 0 => pure (Section.NOP, bs)
  | 2 => do
    let (size, bs) ← readU16 bs
    let (code, bs) ← readBytes size bs
    pure (Section.Code ⟨size, code⟩, bs)
  | 4 => do
    let (a, bs) ← readU16 bs
    let (b, bs) ← readU16 bs
    pure (Section.RunAtOffset a b, bs)
  | 6 => do
    let (id, bs) ← readU16 bs
    pure (Section.SectionSwitch ⟨id⟩, bs)
  | 8 => do
    let (size, bs) ← readU32 bs
    pure (Section.BSS size, bs)
  | 10 => do
    let (ptag, bs) ← readU8 bs
    let (offset, bs) ← readU16 bs
    let (e, bs) ← decodeExpression fuel bs
    pure (Section.Patch ⟨ptag, offset, e⟩, bs)
  | 12 => do
    let (number, bs) ← readU16 bs
    let (sec, bs) ← readU16 bs
    let (offset, bs) ← readU32 bs
    let (n, bs) ← readU8 bs
    let (name, bs) ← readBytes n bs
    pure (Section.XDEF ⟨number, sec, offset, n, name⟩, bs)
  | 14 => do
    let (number, bs) ← readU16 bs
    let (n, bs) ← readU8 bs
    let (name, bs) ← readBytes n bs
    pure (Section.XREF ⟨number, n, name⟩, bs)
  | 16 => do
    let (sec, bs) ← readU16 bs
    let (group, bs) ← readU16 bs
    let (align, bs) ← readU8 bs
    let (n, bs) ← readU8 bs
    let (tname, bs) ← readBytes n bs
    pure (Section.LNKHeader ⟨sec, group, align, n, tname⟩, bs)
  | 18 => do
    let (sec, bs) ← readU16 bs
    let (offset, bs) ← readU32 bs
    let (n, bs) ← readU8 bs
    let (name, bs) ← readBytes n bs
    pure (Section.LocalSymbol ⟨sec, offset, n, name⟩, bs)
  | 20 => do
    let (number, bs) ← readU16 bs
    let (t, bs) ← readU8 bs
    let (n, bs) ← readU8 bs
    let (name, bs) ← readBytes n bs
    pure (Section.GroupSymbol ⟨number, t, n, name⟩, bs)
  | 28 => do
    let (number, bs) ← readU16 bs
    let (n, bs) ← readU8 bs
    let (name, bs) ← readBytes n bs
    pure (Section.Filename ⟨number, n, name⟩, bs)
  | 44 => do
    let (offset, bs) ← readU16 bs
    let (value, bs) ← readU8 bs
    pure (Section.SetMXInfo ⟨offset, value⟩, bs)
  | 46 => do
    let (cpu, bs) ← readU8 bs
    pure (Section.CPU cpu, bs)
  | 48 => do
    let (number, bs) ← readU16 bs
    let (sec, bs) ← readU16 bs
    let (size, bs) ← readU32 bs
    let (n, bs) ← readU8 bs
    let (name, bs) ← readBytes n bs
    pure (Section.XBSS ⟨number, sec, size, n, name⟩, bs)
  | 50 => do
    let (offset, bs) ← readU16 bs
    pure (Section.IncSLDLineNum offset, bs)
  | 52 => do
    let (offset, bs) ← readU16 bs
    let (delta, bs) ← readU8 bs
    pure (Section.IncSLDLineNumByte offset delta, bs)
  | 56 => do
    let (offset, bs) ← readU16 bs
    let (linenum, bs) ← readU32 bs
    pure (Section.SetSLDLineNum ⟨offset, linenum⟩, bs)
  | 58 => do
    let (offset, bs) ← readU16 bs
    let (linenum, bs) ← readU32 bs
    let (file, bs) ← readU16 bs
    pure (Section.SetSLDLineNumFile ⟨offset, linenum, file⟩, bs)
  | 60 => do
    let (offset, bs) ← readU16 bs
    pure (Section.EndSLDInfo offset, bs)
  | 74 => do
    let (sec, bs) ← readU16 bs
    let (offset, bs) ← readU32 bs
    let (file, bs) ← readU16 bs
    let (linenum, bs) ← readU32 bs
    let (frameReg, bs) ← readU16 bs
    let (frameSize, bs) ← readU32 bs
    let (retPcReg, bs) ← readU16 bs
    let (mask, bs) ← readU32 bs
    let (maskOffset, bs) ← readI32 bs
    let (n, bs) ← readU8 bs
    let (name, bs) ← readBytes n bs
    pure (Section.FunctionStart
      ⟨sec, offset, file, linenum, frameReg, frameSize, retPcReg, mask, maskOffset,
        n, name⟩, bs)
  | 76 => do
    let (sec, bs) ← readU16 bs
    let (offset, bs) ← readU32 bs
    let (linenum, bs) ← readU32 bs
    pure (Section.FunctionEnd ⟨sec, offset, linenum⟩, bs)
  | 78 => do
    let (sec, bs) ← readU16 bs
    let (offset, bs) ← readU32 bs
    let (linenum, bs) ← readU32 bs
    pure (Section.BlockStart ⟨sec, offset, linenum⟩, bs)
  | 80 => do
    let (sec, bs) ← readU16 bs
    let (offset, bs) ← readU32 bs
    let (linenum, bs) ← readU32 bs
    pure (Section.BlockEnd ⟨sec, offset, linenum⟩, bs)
  | 82 => do
    let (sec, bs) ← readU16 bs
    let (value, bs) ← readU32 bs
    let (cls, bs) ← readU16 bs
    let (defType, bs) ← readU16 bs
    let (size, bs) ← readU32 bs
    let (n, bs) ← readU8 bs
    let (name, bs) ← readBytes n bs
    pure (Section.Def ⟨sec, value, cls, defType, size, n, name⟩, bs)
  | 84 => do
    let (sec, bs) ← readU16 bs
    let (value, bs) ← readU32 bs
    let (cls, bs) ← readU16 bs
    let (defType, bs) ← readU16 bs
    let (size, bs) ← readU32 bs
    let (dims, bs) ← decodeDim bs
    let (tagSize, bs) ← readU8 bs
    let (tagName, bs) ← readBytes tagSize bs
    let (n, bs) ← readU8 bs
    let (name, bs) ← readBytes n bs
    pure (Section.Def2 ⟨sec, value, cls, defType, size, dims, tagSize, tagName, n, name⟩,
      bs)
  | _ => none

/-- binrw-derived writer for `Section`: the variant's `#[brw(magic)]` tag
byte, then the payload fields in order. -/
def encodeSection : Section → List Nat
  | Section.NOP => [0]
  | Section.Code c => 2 :: (writeU16 c.size ++ c.code)
  | Section.RunAtOffset a b => 4 :: (writeU16 a ++ writeU16 b)
  | Section.SectionSwitch s => 6 :: writeU16 s.id
  | Section.BSS size => 8 :: writeU32 size
  | Section.Patch p => 10 :: (writeU8 p.tag ++ writeU16 p.offset ++ encodeExpression p.expression)
  | Section.XDEF x =>
    12 :: (writeU16 x.number ++ writeU16 x.«section» ++ writeU32 x.offset
      ++ writeU8 x.symbol_name_size ++ x.symbol_name)
  | Section.XREF x =>
    14 :: (writeU16 x.number ++ writeU8 x.symbol_name_size ++ x.symbol_name)
  | Section.LNKHeader h =>
    16 :: (writeU16 h.«section» ++ writeU16 h.group ++ writeU8 h.align
      ++ writeU8 h.type_name_size ++ h.type_name)
  | Section.LocalSymbol s =>
    18 :: (writeU16 s.«section» ++ writeU32 s.offset ++ writeU8 s.name_size ++ s.name)
  | Section.GroupSymbol s =>
    20 :: (writeU16 s.number ++ writeU8 s.sym_type ++ writeU8 s.name_size ++ s.name)
  | Section.Filename f =>
    28 :: (writeU16 f.number ++ writeU8 f.size ++ f.name)
  | Section.SetMXInfo s => 44 :: (writeU16 s.offset ++ writeU8 s.value)
  | Section.CPU c => 46 :: writeU8 c
  | Section.XBSS x =>
    48 :: (writeU16 x.number ++ writeU16 x.«section» ++ writeU32 x.size
      ++ writeU8 x.name_size ++ x.name)
  | Section.IncSLDLineNum offset => 50 :: writeU16 offset
  | Section.IncSLDLineNumByte offset delta => 52 :: (writeU16 offset ++ writeU8 delta)
  | Section.SetSLDLineNum s => 56 :: (writeU16 s.offset ++ writeU32 s.linenum)
  | Section.SetSLDLineNumFile s =>
    58 :: (writeU16 s.offset ++ writeU32 s.linenum ++ writeU16 s.file)
  | Section.EndSLDInfo offset => 60 :: writeU16 offset
  | Section.FunctionStart f =>
    74 :: (writeU16 f.«section» ++ writeU32 f.offset ++ writeU16 f.file
      ++ writeU32 f.linenum ++ writeU16 f.frame_register ++ writeU32 f.frame_size
      ++ writeU16 f.return_pc_register ++ writeU32 f.mask ++ writeI32 f.mask_offset
      ++ writeU8 f.name_size ++ f.name)
  | Section.FunctionEnd f =>
    76 :: (writeU16 f.«section» ++ writeU32 f.offset ++ writeU32 f.linenum)
  | Section.BlockStart b =>
    78 :: (writeU16 b.«section» ++ writeU32 b.offset ++ writeU32 b.linenum)
  | Section.BlockEnd b =>
    80 :: (writeU16 b.«section» ++ writeU32 b.offset ++ writeU32 b.linenum)
  | Section.Def d =>
    82 :: (writeU16 d.«section» ++ writeU32 d.value ++ writeU16 d.«class»
      ++ writeU16 d.def_type ++ writeU32 d.size ++ writeU8 d.name_size ++ d.name)
  | Section.Def2 d =>
    84 :: (writeU16 d.«section» ++ writeU32 d.value ++ writeU16 d.«class»
      ++ writeU16 d.def_type ++ writeU32 d.size ++ encodeDim d.dims
      ++ writeU8 d.tag_size ++ d.tag ++ writeU8 d.name_size ++ d.name)

/-- binrw `until(matches!(section, Section::NOP))`: read sections up to and
including the NOP terminator. -/
def decodeSections : Nat → List Nat → Option (List Section × List Nat)
  | 0, _ => none
  | fuel + 1, bs => do
    let (s, bs) ← decodeSection (fuel + 1) bs
    match s with
    | Section.NOP => pure ([Section.NOP], bs)
    | _ => do
      let (rest, bs) ← decodeSections fuel bs
      pure (s :: rest, bs)

/-- `struct OBJ { version: u8, sections: Vec<Section> }`. -/
structure OBJ where
  version : Nat
  sections : List Section
  deriving DecidableEq, Repr

/-- `OBJ` reader: the `"LNK"` magic (0x4C 0x4E 0x4B), the version byte, then
sections until NOP. -/
def decodeOBJ (bs : List Nat) : Option (OBJ × List Nat) :=
  match bs with
  | 76 :: 78 :: 75 :: bs => do
    let (version, bs) ← readU8 bs
    let (sections, bs) ← decodeSections (bs.length + 1) bs
    pure (OBJ.mk version sections, bs)
  | _ => none

/-- `OBJ` writer: magic, version, each section in order (the NOP terminator is
part of the stored section list). -/
def encodeOBJ (o : OBJ) : List Nat :=
  76 :: 78 :: 75 :: (writeU8 o.version ++ (o.sections.map encodeSection).flatten)

/-- `OBJ::exports`: names of XDEF sections with non-zero `symbol_name_size`
and of XBSS sections with non-zero `name_size`, in section order. -/
def OBJ.exports (o : OBJ) : List (List Nat) :=
  o.sections.filterMap fun s =>
    match s with
    | Section.XDEF xdef =>
      if xdef.symbol_name_size > 0 then some xdef.symbol_name else none
    | Section.XBSS xbss =>
      if xbss.name_size > 0 then some xbss.name else none
    | _ => none

/-- Modelled from the spec's words (§4.6), for the refinement comparison: the
observable exports are the symbol names appearing in any XDEF section with a
non-zero name length, plus those in any XBSS section with a non-zero name
length, in first-encountered order with duplicates preserved. -/
def exports_spec (sections : List Section) : List (List Nat) :=
  sections.filterMap fun s =>
    match s with
    | Section.XDEF xdef => if xdef.symbol_name ≠ [] then some xdef.symbol_name else none
    | Section.XBSS xbss => if xbss.name ≠ [] then some xbss.name else none
    | _ => none

/-- The size fields a decoded XDEF/XBSS section always satisfies: the one-byte
length prefix counts exactly the stored name bytes. -/
def section_sizes_ok : Section → Prop
  | Section.XDEF x => x.symbol_name_size = x.symbol_name.length
  | Section.XBSS x => x.name_size = x.name.length
  | _ => True

/-! ## Display layer (src/lib.rs `DisplayWithOptions for Section`/`OBJ`,
src/display.rs `Options`)

Rust format specifiers are rendered with explicit helpers: `hexStr` is
`\x7b:x\x7d` (lowercase, no padding), `hex4`/`hex8` are `\x7b:04x\x7d`/`\x7b:08x\x7d`,
decimal `\x7b\x7d` is `toString`.  `String::from_utf8_lossy` (the text-decoding
collaborator) and the `rabbitizer` disassembler are passed in as function
parameters `lossy` and `dis`.  A `Rust` panic (the `try_into().unwrap()` on a
short trailing code chunk) is modelled by `none`. -/

/-- Lowercase hex rendering of a `Nat` (Rust format specifier x). -/
def hexStr (n : Nat) : String := String.mk (Nat.toDigits 16 n)

/-- Left-pad a string with `0` to the given width. -/
def padZero (w : Nat) (s : String) : String :=
  String.mk (List.replicate (w - s.length) '0') ++ s

/-- Rust format specifier 04x. -/
def hex4 (n : Nat) : String := padZero 4 (hexStr n)

/-- Rust format specifier 08x. -/
def hex8 (n : Nat) : String := padZero 8 (hexStr n)

/-- Rust format specifier 02x. -/
def hex2 (n : Nat) : String := padZero 2 (hexStr n)

/-- `enum CodeFormat` (src/display.rs). -/
inductive CodeFormat where
  | None
  | Hex
  | Disassembly
  deriving DecidableEq, Repr

/-- `struct Options` (src/display.rs); `CodeFormat::None` and `false` are the
derived defaults. -/
structure Options where
  code_format : CodeFormat
  recursive : Bool
  deriving DecidableEq, Repr

/-- `Options::default()`. -/
def Options.default : Options := ⟨CodeFormat.None, false⟩

/-- Rust `str::starts_with`, modelled on the character data. -/
def starts_with (s p : String) : Bool := p.data.isPrefixOf s.data

/-- `is_en_gb`: reads `LC_ALL`, else `LANG`, else the empty string, and tests
for the `en_GB` prefix.  The process environment is passed explicitly. -/
def is_en_gb (lcAll lang : Option String) : Bool :=
  let l :=
    match lcAll with
    | some l => l
    | none =>
      match lang with
      | some l => l
      | none => ""
  starts_with l "en_GB"

/-- `impl fmt::Display for Expression` (src/lib.rs). -/
def displayExpression : Expression → String
  | Expression.Constant value => "$" ++ hexStr value
  | Expression.SymbolAddressIndex addr => "[" ++ hexStr addr ++ "]"
  | Expression.SectionAddressIndex base => "sectbase(" ++ hexStr base ++ ")"
  | Expression.Bank bank => "bank(" ++ hexStr bank ++ ")"
  | Expression.SectOf bank => "sectof(" ++ hexStr bank ++ ")"
  | Expression.Offset bank => "offs(" ++ hexStr bank ++ ")"
  | Expression.SectionStart offset => "sectstart(" ++ hexStr offset ++ ")"
  | Expression.GroupStart group => "groupstart(" ++ hexStr group ++ ")"
  | Expression.GroupOf group => "groupstart(" ++ hexStr group ++ ")"
  | Expression.Segment segment => "seg(" ++ hexStr segment ++ ")"
  | Expression.GroupOrg group => "grouporg(" ++ hexStr group ++ ")"
  | Expression.SectionEnd offset => "sectend(" ++ hexStr offset ++ ")"
  | Expression.Equals l r => "(" ++ displayExpression l ++ "=" ++ displayExpression r ++ ")"
  | Expression.NotEquals l r =>
    "(" ++ displayExpression l ++ "<>" ++ displayExpression r ++ ")"
  | Expression.LTE l r => "(" ++ displayExpression l ++ "<=" ++ displayExpression r ++ ")"
  | Expression.LessThan l r =>
    "(" ++ displayExpression l ++ "<" ++ displayExpression r ++ ")"
  | Expression.GTE l r => "(" ++ displayExpression l ++ ">=" ++ displayExpression r ++ ")"
  | Expression.GreaterThan l r =>
    "(" ++ displayExpression l ++ ">" ++ displayExpression r ++ ")"
  | Expression.Add l r => "(" ++ displayExpression l ++ "+" ++ displayExpression r ++ ")"
  | Expression.Subtract l r =>
    "(" ++ displayExpression l ++ "-" ++ displayExpression r ++ ")"
  | Expression.Multiply l r =>
    "(" ++ displayExpression l ++ "*" ++ displayExpression r ++ ")"
  | Expression.Divide l r => "(" ++ displayExpression l ++ "/" ++ displayExpression r ++ ")"
  | Expression.And l r => "(" ++ displayExpression l ++ "&" ++ displayExpression r ++ ")"
  | Expression.Or l r => "(" ++ displayExpression l ++ "!" ++ displayExpression r ++ ")"
  | Expression.XOR l r => "(" ++ displayExpression l ++ "^" ++ displayExpression r ++ ")"
  | Expression.LeftShift l r =>
    "(" ++ displayExpression l ++ "<<" ++ displayExpression r ++ ")"
  | Expression.RightShift l r =>
    "(" ++ displayExpression l ++ ">>" ++ displayExpression r ++ ")"
  | Expression.Mod l r => "(" ++ displayExpression l ++ "%%" ++ displayExpression r ++ ")"
  | Expression.Dashes l r =>
    "(" ++ displayExpression l ++ "---" ++ displayExpression r ++ ")"
  | Expression.Revword l r =>
    "(" ++ displayExpression l ++ "-revword-" ++ displayExpression r ++ ")"
  | Expression.Check0 l r =>
    "(" ++ displayExpression l ++ "-check0-" ++ displayExpression r ++ ")"
  | Expression.Check1 l r =>
    "(" ++ displayExpression l ++ "-check1-" ++ displayExpression r ++ ")"
  | Expression.BitRange l r =>
    "(" ++ displayExpression l ++ "-bitrange-" ++ displayExpression r ++ ")"
  | Expression.ArshiftChk l r =>
    "(" ++ displayExpression l ++ "-arshift_chk-" ++ displayExpression r ++ ")"

/-- The `CodeFormat::Disassembly` body of the `Code` arm: 4-byte chunks, each
`u32::from_le_bytes(chunk.try_into().unwrap())` (panic = `none` on a short
chunk) rendered through the external disassembler `dis`. -/
def codeDisassembly (dis : Nat → String) (code : List Nat) : Option String := do
  let lines ← (code.toChunks 4).mapM fun chunk =>
    match chunk with
    | [b0, b1, b2, b3] =>
      let ins := b0 + 256 * b1 + 65536 * b2 + 16777216 * b3
      some ("    /* " ++ hex8 ins ++ " */   " ++ dis ins ++ "\n")
    | _ => none
  pure (String.join lines)

/-- The `CodeFormat::Hex` body of the `Code` arm: 16-byte rows. -/
def codeHex (code : List Nat) : String :=
  String.join (((code.toChunks 16).enum.map fun p =>
    hex4 (p.1 * 16) ++ ":" ++ String.join (p.2.map fun b => " " ++ hex2 b) ++ "\n"))

/-- `impl DisplayWithOptions for Section`, `fmt_with_options`: the rendered
text of one section.  `dis` is the external `rabbitizer` disassembler,
`lossy` the `String::from_utf8_lossy` text-decoding collaborator, `lcAll` and
`lang` the `LC_ALL`/`LANG` environment variables. -/
def sectionDisplay (dis : Nat → String) (lossy : List Nat → String)
    (lcAll lang : Option String) (options : Options) : Section → Option String
  | Section.NOP => some "0 : End of file"
  | Section.Code c => do
    let head := "2 : Code " ++ toString c.code.length ++ " bytes"
    match options.code_format with
    | CodeFormat.Disassembly => do
      let body ← codeDisassembly dis c.code
      pure (head ++ "\n\n" ++ body)
    | CodeFormat.Hex => pure (head ++ "\n\n" ++ codeHex c.code)
    | CodeFormat.None => pure head
  | Section.SectionSwitch switch =>
    some ("6 : Switch to section " ++ hexStr switch.id)
  | Section.BSS size =>
    let uninit := if is_en_gb lcAll lang then "Uninitialised" else "Uninitialized"
    some ("8 : " ++ uninit ++ " data, " ++ toString size ++ " bytes")
  | Section.Patch patch =>
    some ("10 : Patch type " ++ toString patch.tag ++ " at offset "
      ++ hexStr patch.offset ++ " with " ++ displayExpression patch.expression)
  | Section.XDEF xdef =>
    some ("12 : XDEF symbol number " ++ hexStr xdef.number ++ " '"
      ++ lossy xdef.symbol_name ++ "' at offset " ++ hexStr xdef.offset
      ++ " in section " ++ hexStr xdef.«section»)
  | Section.XREF xref =>
    some ("14 : XREF symbol number " ++ hexStr xref.number ++ " '"
      ++ lossy xref.symbol_name ++ "'")
  | Section.LNKHeader sec =>
    some ("16 : Section symbol number " ++ hexStr sec.«section» ++ " '"
      ++ lossy sec.type_name ++ "' in group " ++ toString sec.group
      ++ " alignment " ++ toString sec.align)
  | Section.LocalSymbol symbol =>
    some ("18 : Local symbol '" ++ lossy symbol.name ++ "' at offset "
      ++ hexStr symbol.offset ++ " in section " ++ hexStr symbol.«section»)
  | Section.GroupSymbol symbol =>
    some ("20 : Group symbol number " ++ hexStr symbol.number ++ " `"
      ++ lossy symbol.name ++ "` type " ++ toString symbol.sym_type)
  | Section.Filename filename =>
    some ("28 : Define file number " ++ hexStr filename.number ++ " as \""
      ++ lossy filename.name ++ "\"")
  | Section.SetMXInfo s =>
    some ("44 : Set MX info at offset " ++ hexStr s.offset ++ " to " ++ hexStr s.value)
  | Section.CPU cpu => some ("46 : Processor type " ++ toString cpu)
  | Section.XBSS xbss =>
    some ("48 : XBSS symbol number " ++ hexStr xbss.number ++ " '"
      ++ lossy xbss.name ++ "' size " ++ hexStr xbss.size ++ " in section "
      ++ hexStr xbss.«section»)
  | Section.IncSLDLineNum offset =>
    some ("50 : Inc SLD linenum at offset " ++ hexStr offset)
  | Section.IncSLDLineNumByte offset byte =>
    some ("52 : Inc SLD linenum by byte " ++ toString byte ++ " at offset "
      ++ hexStr offset)
  | Section.SetSLDLineNum line =>
    some ("56 : Set SLD linenum to " ++ toString line.linenum ++ " at offset "
      ++ hexStr line.offset)
  | Section.SetSLDLineNumFile line =>
    some ("58 : Set SLD linenum to " ++ toString line.linenum ++ " at offset "
      ++ hexStr line.offset ++ " in file " ++ hexStr line.file)
  | Section.EndSLDInfo offset =>
    some ("60 : End SLD info at offset " ++ hexStr offset)
  | Section.FunctionStart start =>
    some ("74 : Function start :\n section " ++ hex4 start.«section»
      ++ "\n offset $" ++ hex8 start.offset
      ++ "\n file " ++ hex4 start.file
      ++ "\n start line " ++ toString start.linenum
      ++ "\n frame reg " ++ toString start.frame_register
      ++ "\n frame size " ++ toString start.frame_size
      ++ "\n return pc reg " ++ toString start.return_pc_register
      ++ "\n mask $" ++ hex8 start.mask
      ++ "\n mask offset " ++ toString start.mask_offset
      ++ "\n name " ++ lossy start.name)
  | Section.FunctionEnd e =>
    some ("76 : Function end :\n section " ++ hex4 e.«section»
      ++ "\n offset $" ++ hex8 e.offset
      ++ "\n end line " ++ toString e.linenum)
  | Section.BlockStart start =>
    some ("78 : Block start : section " ++ hex4 start.«section»
      ++ "\n offset $" ++ hex8 start.offset
      ++ "\n start line " ++ toString start.linenum)
  | Section.BlockEnd e =>
    some ("80 : Block end\n section " ++ hex4 e.«section»
      ++ "\n offset $" ++ hex8 e.offset
      ++ "\n end line " ++ toString e.linenum)
  | Section.Def d =>
    some ("82 : Def :\n section " ++ hex4 d.«section»
      ++ "\n value $" ++ hex8 d.value
      ++ "\n class " ++ toString d.«class»
      ++ "\n type " ++ toString d.def_type
      ++ "\n size " ++ toString d.size
      ++ "\n name : " ++ lossy d.name)
  | Section.Def2 d =>
    some ("84 : Def2 :\n section " ++ hex4 d.«section»
      ++ "\n value $" ++ hex8 d.value
      ++ "\n class " ++ toString d.«class»
      ++ "\n type " ++ toString d.def_type
      ++ "\n size " ++ toString d.size
      ++ "\n dims " ++ (match d.dims with
        | Dim.None => "0"
        | Dim.Value v => "1 " ++ toString v)
      ++ " \n tag " ++ lossy d.tag
      ++ "\n" ++ lossy d.name)
  | Section.RunAtOffset a b =>
    some ("RunAtOffset(" ++ toString a ++ ", " ++ toString b ++ ")")

/-- `impl DisplayWithOptions for OBJ`, `fmt_with_options`: the header line,
then each section's rendering followed by a newline. -/
def objDisplay (dis : Nat → String) (lossy : List Nat → String)
    (lcAll lang : Option String) (options : Options) (o : OBJ) : Option String := do
  let parts ← o.sections.mapM (sectionDisplay dis lossy lcAll lang options)
  pure ("Header : LNK version " ++ toString o.version ++ "\n"
    ++ String.join (parts.map (fun p => p ++ "\n")))

/-- A section that is not a BSS section (the only arm of the section renderer
that consults the environment). -/
def no_bss : Section → Prop
  | Section.BSS _ => False
  | _ => True

/-! ## Linker-script parser (src/link.rs)

The winnow parsers are embedded as pure functions from the remaining input
(`List Char`) to a result that is either success with the rest of the input,
a backtracking error (winnow `ErrMode::Backtrack`, which `alt` recovers from)
or a cut error (winnow `ErrMode::Cut`, produced by `cut_err`, which aborts
the surrounding `alt`).  Rust `String` values in the AST are `List Char`.
The recursive expression parser takes explicit fuel; the public entry points
supply `input.length + 1`, which is always sufficient because every recursive
call first consumes at least one character. -/

namespace Link

inductive PRes (α : Type) where
  | ok (a : α) (rest : List Char)
  | back
  | cut
  deriving DecidableEq, Repr

/-- A parser over the remaining input. -/
def Parser (α : Type) : Type := List Char → PRes α

/-- Monadic sequencing: both error kinds propagate (winnow `?`). -/
def pBind {α β : Type} (p : Parser α) (f : α → Parser β) : Parser β := fun inp =>
  match p inp with
  | PRes.ok a rest => f a rest
  | PRes.back => PRes.back
  | PRes.cut => PRes.cut

def pPure {α : Type} (a : α) : Parser α := fun inp => PRes.ok a inp

def pMap {α β : Type} (f : α → β) (p : Parser α) : Parser β :=
  pBind p (fun a => pPure (f a))

/-- winnow `alt` between two parsers: a `Backtrack` failure of the first
restores the input and tries the second; a `Cut` aborts. -/
def pAlt {α : Type} (p q : Parser α) : Parser α := fun inp =>
  match p inp with
  | PRes.back => q inp
  | r => r

/-- winnow `opt`: `Backtrack` becomes `none` with the input restored. -/
def pOpt {α : Type} (p : Parser α) : Parser (Option α) := fun inp =>
  match p inp with
  | PRes.ok a rest => PRes.ok (some a) rest
  | PRes.back => PRes.ok none inp
  | PRes.cut => PRes.cut

/-- winnow `cut_err`: turn a `Backtrack` error into a `Cut`. -/
def pCut {α : Type} (p : Parser α) : Parser α := fun inp =>
  match p inp with
  | PRes.back => PRes.cut
  | r => r

/-- winnow `fail` (its `.context(...)` only decorates the error). -/
def pFail {α : Type} : Parser α := fun _ => PRes.back

/-- winnow `alt` over a list of alternatives, tried in order. -/
def pAlts {α : Type} (ps : List (Parser α)) : Parser α := ps.foldr pAlt pFail

/-- A literal string token, returning the matched characters. -/
def pLit (lit : List Char) : Parser (List Char) := fun inp =>
  if lit.isPrefixOf inp then PRes.ok lit (inp.drop lit.length) else PRes.back

/-- A literal character token. -/
def pChar (c : Char) : Parser Char := fun inp =>
  match inp with
  | c' :: rest => if c' = c then PRes.ok c rest else PRes.back
  | [] => PRes.back

/-- ASCII lower-casing of one character (Rust `eq_ignore_ascii_case`). -/
def asciiLower (c : Char) : Char :=
  if 'A' ≤ c ∧ c ≤ 'Z' then Char.ofNat (c.toNat + 32) else c

/-- winnow `Caseless(lit)`: an ASCII case-insensitive literal (`lit` itself is
lowercase in every use below). -/
def pCaseless (lit : List Char) : Parser (List Char) := fun inp =>
  if (inp.take lit.length).map asciiLower = lit.map asciiLower then
    PRes.ok (inp.take lit.length) (inp.drop lit.length)
  else PRes.back

/-- winnow `take_while(0.., pred)`: never fails. -/
def pTakeWhile0 (pred : Char → Bool) : Parser (List Char) := fun inp =>
  PRes.ok (inp.takeWhile pred) (inp.dropWhile pred)

/-- winnow `take_while(1.., pred)`. -/
def pTakeWhile1 (pred : Char → Bool) : Parser (List Char) := fun inp =>
  match inp.takeWhile pred with
  | [] => PRes.back
  | t => PRes.ok t (inp.dropWhile pred)

/-- winnow `take_while(1, set)`: exactly one character of the set. -/
def pTake1 (pred : Char → Bool) : Parser Char := fun inp =>
  match inp with
  | c :: rest => if pred c then PRes.ok c rest else PRes.back
  | [] => PRes.back

def isSpaceTab (c : Char) : Bool := c = ' ' || c = '\t'

/-- winnow `space0` (spaces and horizontal tabs). -/
def space0 : Parser (List Char) := pTakeWhile0 isSpaceTab

/-- winnow `space1`. -/
def space1 : Parser (List Char) := pTakeWhile1 isSpaceTab

def isDigitChar (c : Char) : Bool := '0' ≤ c && c ≤ '9'

def isHexDigitChar (c : Char) : Bool :=
  isDigitChar c || ('a' ≤ c && c ≤ 'f') || ('A' ≤ c && c ≤ 'F')

def isAlphaChar (c : Char) : Bool := ('a' ≤ c && c ≤ 'z') || ('A' ≤ c && c ≤ 'Z')

/-- First character of an identifier: a letter or an underscore. -/
def isSymbolFirst (c : Char) : Bool := isAlphaChar c || c = '_'

/-- Continuation of an identifier: letters, digits, and the three marks. -/
def isSymbolRest (c : Char) : Bool :=
  isAlphaChar c || isDigitChar c || c = '?' || c = '_' || c = '.'

/-- `parse_file_name`: one or more characters other than a double quote. -/
def parse_file_name : Parser (List Char) := pTakeWhile1 (fun c => c ≠ '"')

/-- `parse_symbol`: `take_while(1, letters or _)` then
`take_while(0.., letters, digits, ?, _, .)`, concatenated. -/
def parse_symbol : Parser (List Char) :=
  pBind (pTake1 isSymbolFirst) fun c =>
    pBind (pTakeWhile0 isSymbolRest) fun t =>
      pPure (c :: t)

/-- Numeric value of one digit character (both hex cases). -/
def digitVal (c : Char) : Nat :=
  if isDigitChar c then c.toNat - 48
  else if 'a' ≤ c ∧ c ≤ 'f' then c.toNat - 87
  else if 'A' ≤ c ∧ c ≤ 'F' then c.toNat - 55
  else 0

/-- The value of a digit string in the given base. -/
def digitsToNat (base : Nat) (ds : List Char) : Nat :=
  ds.foldl (fun acc c => acc * base + digitVal c) 0

/-- `parse_bin_digits`: binary digits, failing with a `Cut` when the value
does not fit in a `u64` (`u64::from_str_radix` overflow). -/
def parse_bin_digits : Parser Nat :=
  pBind (pTakeWhile1 (fun c => c = '0' || c = '1')) fun ds => fun inp =>
    if digitsToNat 2 ds < 18446744073709551616 then PRes.ok (digitsToNat 2 ds) inp
    else PRes.cut

/-- `parse_decimal_digits` (winnow `digit1`, then `parse::<u64>()`). -/
def parse_decimal_digits : Parser Nat :=
  pBind (pTakeWhile1 isDigitChar) fun ds => fun inp =>
    if digitsToNat 10 ds < 18446744073709551616 then PRes.ok (digitsToNat 10 ds) inp
    else PRes.cut

/-- `parse_hex_digits` (winnow `hex_digit1`, then `from_str_radix(16)`). -/
def parse_hex_digits : Parser Nat :=
  pBind (pTakeWhile1 isHexDigitChar) fun ds => fun inp =>
    if digitsToNat 16 ds < 18446744073709551616 then PRes.ok (digitsToNat 16 ds) inp
    else PRes.cut

/-- `parse_prefixed_digits`: `$hex` or `%binary`, digits under `cut_err`. -/
def parse_prefixed_digits : Parser Nat :=
  pAlt (pBind (pChar '$') fun _ => pCut parse_hex_digits)
    (pAlt (pBind (pChar '%') fun _ => pCut parse_bin_digits) pFail)

/-- `parse_integer_constant`: decimal, else prefixed, else fail. -/
def parse_integer_constant : Parser Nat :=
  pAlt parse_decimal_digits (pAlt parse_prefixed_digits pFail)

/-- winnow `separated(...)` continuation: repeatedly a separator then an
element, resetting to before the separator when the element fails with a
`Backtrack`.  Every use has a separator or element that consumes input, so
`fuel = input.length + 1` never runs out. -/
def sepRest {α β : Type} (p : Parser α) (sep : Parser β) :
    Nat → List Char → List α → PRes (List α)
  | 0, inp, acc => PRes.ok acc inp
  | fuel + 1, inp, acc =>
    match sep inp with
    | PRes.cut => PRes.cut
    | PRes.back => PRes.ok acc inp
    | PRes.ok _ inp2 =>
      match p inp2 with
      | PRes.cut => PRes.cut
      | PRes.back => PRes.ok acc inp
      | PRes.ok a inp3 => sepRest p sep fuel inp3 (acc ++ [a])

/-- winnow `separated(1.., p, sep)`. -/
def pSep1 {α β : Type} (p : Parser α) (sep : Parser β) : Parser (List α) := fun inp =>
  match p inp with
  | PRes.back => PRes.back
  | PRes.cut => PRes.cut
  | PRes.ok a inp2 => sepRest p sep (inp2.length + 1) inp2 [a]

/-- winnow `separated(0.., p, sep)`. -/
def pSep0 {α β : Type} (p : Parser α) (sep : Parser β) : Parser (List α) := fun inp =>
  match p inp with
  | PRes.back => PRes.ok [] inp
  | PRes.cut => PRes.cut
  | PRes.ok a inp2 => sepRest p sep (inp2.length + 1) inp2 [a]

/-- `parse_symbol_list`: `separated(1.., parse_symbol, (space0, ',', space0))`. -/
def parse_symbol_list : Parser (List (List Char)) :=
  pSep1 parse_symbol
    (pBind space0 fun _ => pBind (pChar ',') fun _ => space0)

/-- `parse_function_name`: the ten recognized names, matched case-sensitively
(plain string literals), then `to_lowercase` (the identity on these
all-lowercase matches). -/
def function_names : List (List Char) :=
  ["sectstart".toList, "sectend".toList, "sectbase".toList, "sectof".toList,
    "offs".toList, "bank".toList, "groupstart".toList, "groupof".toList,
    "grouporg".toList, "seg".toList]

def parse_function_name : Parser (List Char) :=
  pAlts (function_names.map pLit)

/-- `enum UnaryOp`. -/
inductive UnaryOp where
  | Neg
  | Not
  | LogNot
  deriving DecidableEq, Repr

/-- `enum BinaryOp`. -/
inductive BinaryOp where
  | Add
  | Sub
  | Mul
  | Div
  | Mod
  | And
  | Or
  | Xor
  | Shl
  | Shr
  | Eq
  | Ne
  | Lt
  | Le
  | Gt
  | Ge
  | LogAnd
  | LogOr
  deriving DecidableEq, Repr, Fintype

/-- `BinaryOp::precedence` (`Precedence(u8)`, higher binds tighter):
LOGICAL_OR = 1, LOGICAL_AND = 2, BITWISE_OR = 3, BITWISE_XOR = 4,
BITWISE_AND = 5, EQUALITY = 6, COMPARISON = 7, SHIFT = 8, ADDITIVE = 9,
MULTIPLICATIVE = 10 (LOWEST = 0). -/
def BinaryOp.precedence : BinaryOp → Nat
  | BinaryOp.LogOr => 1
  | BinaryOp.LogAnd => 2
  | BinaryOp.Or => 3
  | BinaryOp.Xor => 4
  | BinaryOp.And => 5
  | BinaryOp.Eq | BinaryOp.Ne => 6
  | BinaryOp.Lt | BinaryOp.Le | BinaryOp.Gt | BinaryOp.Ge => 7
  | BinaryOp.Shl | BinaryOp.Shr => 8
  | BinaryOp.Add | BinaryOp.Sub => 9
  | BinaryOp.Mul | BinaryOp.Div | BinaryOp.Mod => 10

/-- `BinaryOp::is_left_associative`: all binary operators are. -/
def BinaryOp.is_left_associative (_ : BinaryOp) : Bool := true

/-- Each operator's token, exactly the literal `parse_binary_op` recognizes
for it (and the spelling the `Display` impl prints). -/
def BinaryOp.token : BinaryOp → List Char
  | BinaryOp.Add => ['+']
  | BinaryOp.Sub => ['-']
  | BinaryOp.Mul => ['*']
  | BinaryOp.Div => ['/']
  | BinaryOp.Mod => ['%']
  | BinaryOp.And => ['&']
  | BinaryOp.Or => ['|']
  | BinaryOp.Xor => ['^']
  | BinaryOp.Shl => ['<', '<']
  | BinaryOp.Shr => ['>', '>']
  | BinaryOp.Eq => ['=', '=']
  | BinaryOp.Ne => ['!', '=']
  | BinaryOp.Lt => ['<']
  | BinaryOp.Le => ['<', '=']
  | BinaryOp.Gt => ['>']
  | BinaryOp.Ge => ['>', '=']
  | BinaryOp.LogAnd => ['&', '&']
  | BinaryOp.LogOr => ['|', '|']

/-- `enum Expression` of the linker script. -/
inductive Expression where
  | Constant (n : Nat)
  | Symbol (s : List Char)
  | Binary (left : Expression) (op : BinaryOp) (right : Expression)
  | Unary (op : UnaryOp) (operand : Expression)
  | Parens (e : Expression)
  | Function (name : List Char) (arg : Expression)
  deriving DecidableEq, Repr

/-- `parse_binary_op`: two-character operators first, then single characters,
each after `space0`. -/
def parse_binary_op : Parser BinaryOp :=
  pBind space0 fun _ =>
    pAlts [pMap (fun _ => BinaryOp.Shl) (pLit "<<".toList),
      pMap (fun _ => BinaryOp.Shr) (pLit ">>".toList),
      pMap (fun _ => BinaryOp.Eq) (pLit "==".toList),
      pMap (fun _ => BinaryOp.Ne) (pLit "!=".toList),
      pMap (fun _ => BinaryOp.Le) (pLit "<=".toList),
      pMap (fun _ => BinaryOp.Ge) (pLit ">=".toList),
      pMap (fun _ => BinaryOp.LogAnd) (pLit "&&".toList),
      pMap (fun _ => BinaryOp.LogOr) (pLit "||".toList),
      pMap (fun _ => BinaryOp.Add) (pChar '+'),
      pMap (fun _ => BinaryOp.Sub) (pChar '-'),
      pMap (fun _ => BinaryOp.Mul) (pChar '*'),
      pMap (fun _ => BinaryOp.Div) (pChar '/'),
      pMap (fun _ => BinaryOp.Mod) (pChar '%'),
      pMap (fun _ => BinaryOp.And) (pChar '&'),
      pMap (fun _ => BinaryOp.Or) (pChar '|'),
      pMap (fun _ => BinaryOp.Xor) (pChar '^'),
      pMap (fun _ => BinaryOp.Lt) (pChar '<'),
      pMap (fun _ => BinaryOp.Gt) (pChar '>')]

mutual

/-- `parse_primary`: after `space0`, a function call, a parenthesized
expression, an integer constant, a symbol, or `fail`. -/
def parse_primaryF : Nat → Parser Expression
  | 0 => fun _ => PRes.cut
  | fuel + 1 =>
    pBind space0 fun _ =>
      pAlt
        (pBind parse_function_name fun name =>
          pBind (pChar '(') fun _ =>
            pBind (parse_expressionF fuel) fun arg =>
              pBind (pChar ')') fun _ =>
                pPure (Expression.Function name arg))
        (pAlt
          (pBind (pChar '(') fun _ =>
            pBind (parse_expressionF fuel) fun e =>
              pBind (pChar ')') fun _ =>
                pPure (Expression.Parens e))
          (pAlt (pMap Expression.Constant parse_integer_constant)
            (pAlt (pMap Expression.Symbol parse_symbol) pFail)))

/-- `parse_unary`: after `space0`, a right-chaining unary operator with
`cut_err` on its operand, or a primary. -/
def parse_unaryF : Nat → Parser Expression
  | 0 => fun _ => PRes.cut
  | fuel + 1 =>
    pBind space0 fun _ =>
      pAlt
        (pBind (pChar '-') fun _ =>
          pMap (fun e => Expression.Unary UnaryOp.Neg e) (pCut (parse_unaryF fuel)))
        (pAlt
          (pBind (pChar '~') fun _ =>
            pMap (fun e => Expression.Unary UnaryOp.Not e) (pCut (parse_unaryF fuel)))
          (pAlt
            (pBind (pChar '!') fun _ =>
              pMap (fun e => Expression.Unary UnaryOp.LogNot e) (pCut (parse_unaryF fuel)))
            (parse_primaryF fuel)))

/-- `parse_binary_rhs`: the precedence-climbing loop.  The `loop` of the Rust
source is the recursion on the same function; the checkpoint/reset pairs are
the explicit reuse of the earlier input. -/
def parse_binary_rhsF : Nat → Nat → Expression → Parser Expression
  | 0 => fun _ _ _ => PRes.cut
  | fuel + 1 => fun minPrec lhs inp =>
    match pOpt parse_binary_op inp with
    | PRes.cut => PRes.cut
    | PRes.back => PRes.back
    | PRes.ok none _ => PRes.ok lhs inp
    | PRes.ok (some op) inp2 =>
      if op.precedence < minPrec then PRes.ok lhs inp
      else
        match parse_unaryF fuel inp2 with
        | PRes.cut => PRes.cut
        | PRes.back => PRes.back
        | PRes.ok rhs inp3 =>
          match lookaheadF fuel op.precedence rhs inp3 with
          | PRes.cut => PRes.cut
          | PRes.back => PRes.back
          | PRes.ok rhs2 inp4 =>
            parse_binary_rhsF fuel minPrec (Expression.Binary lhs op rhs2) inp4

/-- The inner look-ahead `loop` of `parse_binary_rhs`: while the next operator
binds tighter (or as tight but right-associative, which never happens here),
fold it into the right-hand side. -/
def lookaheadF : Nat → Nat → Expression → Parser Expression
  | 0 => fun _ _ _ => PRes.cut
  | fuel + 1 => fun prec rhs inp =>
    match pOpt parse_binary_op inp with
    | PRes.cut => PRes.cut
    | PRes.back => PRes.back
    | PRes.ok none _ => PRes.ok rhs inp
    | PRes.ok (some nextOp) _ =>
      if nextOp.precedence > prec
          || (nextOp.precedence = prec && !nextOp.is_left_associative) then
        match parse_binary_rhsF fuel nextOp.precedence rhs inp with
        | PRes.cut => PRes.cut
        | PRes.back => PRes.back
        | PRes.ok rhs2 inp2 => lookaheadF fuel prec rhs2 inp2
      else PRes.ok rhs inp

/-- `parse_expression`: a unary left-hand side, then the binary loop from the
lowest precedence threshold. -/
def parse_expressionF : Nat → Parser Expression
  | 0 => fun _ => PRes.cut
  | fuel + 1 => fun inp =>
    match parse_unaryF fuel inp with
    | PRes.cut => PRes.cut
    | PRes.back => PRes.back
    | PRes.ok lhs inp2 => parse_binary_rhsF fuel 0 lhs inp2

end

/-- Public `parse_expression` entry point.  The fuel only bounds the
recursion depth of the embedding: every cycle through the fueled parsers
consumes at least one character while at most four frames descend without
consuming, so `4 * length + 8` never runs out and the result is
fuel-independent beyond that. -/
def parse_expression : Parser Expression := fun inp =>
  parse_expressionF (4 * inp.length + 8) inp

/-- `struct Comment`. -/
structure Comment where
  comment : List Char
  deriving DecidableEq, Repr

/-- `enum Attribute`. -/
inductive Attribute where
  | BSS
  | Origin (address : Nat)
  | Obj (address : Option Nat)
  | Over (group : List Char)
  | Word
  | File (filename : List Char)
  | Size (maxsize : Nat)
  deriving DecidableEq, Repr

/-- `enum Size`. -/
inductive Size where
  | Byte
  | Word
  | Long
  deriving DecidableEq, Repr

/-- `enum Command`. -/
inductive Command where
  | Include (filename : List Char)
  | IncLib (filename : List Char)
  | Origin (address : Nat)
  | Workspace (address : Nat)
  | Equals (left : List Char) (right : Expression)
  | Regs (register : List Char) (expression : Expression)
  | Group (name : List Char) (attributes : List Attribute)
  | «Section» (name : List Char) (group : Option (List Char))
      (attributes : List Attribute)
  | Alias (name : List Char) (target : List Char)
  | Unit (unitnum : Nat)
  | Global (symbols : List (List Char))
  | XDef (symbols : List (List Char))
  | XRef (symbols : List (List Char))
  | Public (public : Bool)
  | DC (size : Size) (expression : List Expression)
  deriving DecidableEq, Repr

/-- `parse_command_generic_filename`: the case-insensitive keyword, spaces,
then a quoted file name. -/
def parse_command_generic_filename (command : List Char) : Parser (List Char) :=
  pBind space0 fun _ =>
    pBind (pCaseless command) fun _ =>
      pBind space1 fun _ =>
        pBind (pChar '"') fun _ =>
          pBind parse_file_name fun filename =>
            pBind (pChar '"') fun _ =>
              pPure filename

/-- `parse_command_include`. -/
def parse_command_include : Parser Command :=
  pMap Command.Include (parse_command_generic_filename "include".toList)

/-- `parse_command_inclib`. -/
def parse_command_inclib : Parser Command :=
  pMap Command.IncLib (parse_command_generic_filename "inclib".toList)

/-- `parse_command_origin`. -/
def parse_command_origin : Parser Command :=
  pBind space0 fun _ =>
    pBind (pCaseless "org".toList) fun _ =>
      pBind space1 fun _ =>
        pMap Command.Origin parse_integer_constant

/-- `parse_command_workspace`. -/
def parse_command_workspace : Parser Command :=
  pBind space0 fun _ =>
    pBind (pCaseless "workspace".toList) fun _ =>
      pBind space1 fun _ =>
        pMap Command.Workspace parse_integer_constant

/-- `parse_command_equals`: `<symbol> (= | EQU) <expr>`.  Note the `"EQU"`
alternative is a plain (case-sensitive) string literal, unlike the `Caseless`
keywords of the other commands. -/
def parse_command_equals : Parser Command :=
  pBind space0 fun _ =>
    pBind parse_symbol fun left =>
      pBind (pAlt
          (pBind space0 fun _ => pBind (pLit "=".toList) fun _ => space0)
          (pBind space1 fun _ => pBind (pLit "EQU".toList) fun _ => space1)) fun _ =>
        pBind parse_expression fun right =>
          pBind space0 fun _ =>
            pPure (Command.Equals left right)

/-- `parse_command_regs`. -/
def parse_command_regs : Parser Command :=
  pBind space0 fun _ =>
    pBind (pCaseless "regs".toList) fun _ =>
      pBind space1 fun _ =>
        pBind parse_symbol fun register =>
          pBind (pLit "=".toList) fun _ =>
            pMap (Command.Regs register) parse_expression

/-- `parse_attribute_bss`. -/
def parse_attribute_bss : Parser Attribute :=
  pMap (fun _ => Attribute.BSS) (pCaseless "bss".toList)

/-- `parse_attribute_org`. -/
def parse_attribute_org : Parser Attribute :=
  pBind (pCaseless "org".toList) fun _ =>
    pBind (pChar '(') fun _ =>
      pBind parse_integer_constant fun address =>
        pBind (pChar ')') fun _ =>
          pPure (Attribute.Origin address)

/-- `parse_attribute_obj`. -/
def parse_attribute_obj : Parser Attribute :=
  pBind (pCaseless "obj".toList) fun _ =>
    pBind (pChar '(') fun _ =>
      pBind (pOpt parse_integer_constant) fun address =>
        pBind (pChar ')') fun _ =>
          pPure (Attribute.Obj address)

/-- `parse_attribute_over`. -/
def parse_attribute_over : Parser Attribute :=
  pBind (pCaseless "over".toList) fun _ =>
    pBind (pChar '(') fun _ =>
      pBind parse_symbol fun group =>
        pBind (pChar ')') fun _ =>
          pPure (Attribute.Over group)

/-- `parse_attribute_word`. -/
def parse_attribute_word : Parser Attribute :=
  pMap (fun _ => Attribute.Word) (pCaseless "word".toList)

/-- `parse_attribute_file`. -/
def parse_attribute_file : Parser Attribute :=
  pBind (pCaseless "file".toList) fun _ =>
    pBind (pLit "(\"".toList) fun _ =>
      pBind parse_file_name fun filename =>
        pBind (pLit "\")".toList) fun _ =>
          pPure (Attribute.File filename)

/-- `parse_attribute_size`. -/
def parse_attribute_size : Parser Attribute :=
  pBind (pCaseless "size".toList) fun _ =>
    pBind (pChar '(') fun _ =>
      pBind parse_integer_constant fun maxsize =>
        pBind (pChar ')') fun _ =>
          pPure (Attribute.Size maxsize)

/-- `parse_attribute`. -/
def parse_attribute : Parser Attribute :=
  pAlts [parse_attribute_bss, parse_attribute_org, parse_attribute_obj,
    parse_attribute_over, parse_attribute_word, parse_attribute_file,
    parse_attribute_size]

/-- `parse_attribute_list`. -/
def parse_attribute_list : Parser (List Attribute) :=
  pSep0 parse_attribute
    (pBind space0 fun _ => pBind (pChar ',') fun _ => space0)

/-- `parse_optional_attribute_list`. -/
def parse_optional_attribute_list : Parser (List Attribute) :=
  pBind (pOpt (pBind space1 fun _ => parse_attribute_list)) fun o =>
    pPure (match o with | none => [] | some l => l)

/-- `parse_command_group`. -/
def parse_command_group : Parser Command :=
  pBind space0 fun _ =>
    pBind parse_symbol fun name =>
      pBind space1 fun _ =>
        pBind (pCaseless "group".toList) fun _ =>
          pMap (Command.Group name) parse_optional_attribute_list

/-- `parse_command_section_with_attributes`. -/
def parse_command_section_with_attributes : Parser Command :=
  pBind space0 fun _ =>
    pBind parse_symbol fun name =>
      pBind space1 fun _ =>
        pBind (pCaseless "section".toList) fun _ =>
          pMap (Command.Section name none) parse_optional_attribute_list

/-- `parse_command_section_with_name`. -/
def parse_command_section_with_name : Parser Command :=
  pBind space0 fun _ =>
    pBind (pCaseless "section".toList) fun _ =>
      pBind space1 fun _ =>
        pBind parse_symbol fun name =>
          pBind (pOpt (pBind (pLit ",".toList) fun _ => parse_symbol)) fun group =>
            pPure (Command.Section name group [])

/-- `parse_command_section`. -/
def parse_command_section : Parser Command :=
  pAlt parse_command_section_with_attributes parse_command_section_with_name

/-- `parse_command_alias`. -/
def parse_command_alias : Parser Command :=
  pBind space0 fun _ =>
    pBind parse_symbol fun name =>
      pBind space1 fun _ =>
        pBind (pCaseless "alias".toList) fun _ =>
          pBind space1 fun _ =>
            pMap (Command.Alias name) parse_symbol

/-- `parse_command_unit`. -/
def parse_command_unit : Parser Command :=
  pBind space0 fun _ =>
    pBind (pCaseless "unit".toList) fun _ =>
      pBind space1 fun _ =>
        pMap Command.Unit parse_integer_constant

/-- `parse_command_public`: `public` then a case-insensitive `on`/`off`
(whose matched text is lowercased and compared with `"on"`). -/
def parse_command_public : Parser Command :=
  pBind space0 fun _ =>
    pBind (pCaseless "public".toList) fun _ =>
      pBind space1 fun _ =>
        pBind (pMap (List.map asciiLower)
            (pAlt (pCaseless "on".toList) (pCaseless "off".toList))) fun v =>
          pPure (Command.Public (v == "on".toList))

/-- `parse_command_generic_symbol_list`. -/
def parse_command_generic_symbol_list (command : List Char) :
    Parser (List (List Char)) :=
  pBind space0 fun _ =>
    pBind (pCaseless command) fun _ =>
      pBind space1 fun _ =>
        parse_symbol_list

/-- `parse_command_global`. -/
def parse_command_global : Parser Command :=
  pMap Command.Global (parse_command_generic_symbol_list "global".toList)

/-- `parse_command_xdef`. -/
def parse_command_xdef : Parser Command :=
  pMap Command.XDef (parse_command_generic_symbol_list "xdef".toList)

/-- `parse_command_xref`. -/
def parse_command_xref : Parser Command :=
  pMap Command.XRef (parse_command_generic_symbol_list "xref".toList)

/-- `parse_comment`. -/
def parse_comment : Parser Comment :=
  pBind space0 fun _ =>
    pBind (pChar ';') fun _ =>
      pBind space0 fun _ =>
        pMap Comment.mk (pTakeWhile0 (fun c => c ≠ '\n'))

/-- `parse_line`: at most one command (the alternatives in source order),
then at most one trailing comment. -/
def parse_line : Parser (Option Command × Option Comment) :=
  pBind (pOpt (pAlts [parse_command_include, parse_command_inclib,
      parse_command_origin, parse_command_workspace, parse_command_equals,
      parse_command_regs, parse_command_group, parse_command_section,
      parse_command_alias, parse_command_unit, parse_command_global,
      parse_command_xdef, parse_command_xref, parse_command_public])) fun command =>
    pBind (pOpt parse_comment) fun comment =>
      pPure (command, comment)

end Link

end Psyx

/-! ## Helper theorems -/

namespace Psyx

theorem and_mask_127 (x : Nat) : x &&& 127 = x % 128 := by
  simpa using Nat.and_pow_two_sub_one_eq_mod x 7

theorem and_mask_15 (x : Nat) : x &&& 15 = x % 16 := by
  simpa using Nat.and_pow_two_sub_one_eq_mod x 4

theorem and_mask_31 (x : Nat) : x &&& 31 = x % 32 := by
  simpa using Nat.and_pow_two_sub_one_eq_mod x 5

theorem and_mask_63 (x : Nat) : x &&& 63 = x % 64 := by
  simpa using Nat.and_pow_two_sub_one_eq_mod x 6

theorem and_mask_65535 (x : Nat) : x &&& 65535 = x % 65536 := by
  simpa using Nat.and_pow_two_sub_one_eq_mod x 16

theorem shr_5 (x : Nat) : x >>> 5 = x / 32 := by
  simp [Nat.shiftRight_eq_div_pow]

theorem shr_9 (x : Nat) : x >>> 9 = x / 512 := by
  simp [Nat.shiftRight_eq_div_pow]

theorem shr_11 (x : Nat) : x >>> 11 = x / 2048 := by
  simp [Nat.shiftRight_eq_div_pow]

theorem shr_16 (x : Nat) : x >>> 16 = x / 65536 := by
  simp [Nat.shiftRight_eq_div_pow]

/-- Bitwise or of disjoint fields is addition: if `a` is a multiple of `2^k`
and `b` fits below bit `k`, then `a ||| b = a + b`. -/
theorem lor_eq_add (k : Nat) {a b : Nat} (ha : a % 2 ^ k = 0) (hb : b < 2 ^ k) :
    a ||| b = a + b := by
  obtain ⟨c, rfl⟩ := Nat.dvd_iff_mod_eq_zero.mpr ha
  exact (Nat.mul_add_lt_is_or hb c).symm

theorem spec_cluster_fit_join_eq_nil {o : Nat} (ho : 8 ≤ o) (cs : List (List Nat)) :
    (spec_cluster_fit o cs).flatten = [] := by
  induction cs generalizing o with
  | nil => rfl
  | cons c cs ih =>
    unfold spec_cluster_fit
    split
    · have hc : c.length = 0 := by omega
      have hc' : c = [] := List.length_eq_zero.mp hc
      subst hc'
      simpa using ih (by omega)
    · rfl

theorem module_name_size_ge (o : Nat) (cs : List (List Nat)) :
    o ≤ module_name_size o cs := by
  induction cs generalizing o with
  | nil => exact Nat.le_refl o
  | cons c cs ih =>
    unfold module_name_size
    split
    · exact Nat.le_refl o
    · exact le_trans (by omega) (ih (o + c.length))

theorem module_name_size_le_8 {o : Nat} (ho : o ≤ 8) (cs : List (List Nat)) :
    module_name_size o cs ≤ 8 := by
  induction cs generalizing o with
  | nil => exact ho
  | cons c cs ih =>
    unfold module_name_size
    split
    · exact ho
    · exact ih (by omega)

theorem module_name_size_eq (o : Nat) (cs : List (List Nat)) :
    module_name_size o cs = o + (spec_cluster_fit o cs).flatten.length := by
  induction cs generalizing o with
  | nil => rfl
  | cons c cs ih =>
    unfold module_name_size spec_cluster_fit
    by_cases hbrk : o > 7 ∨ o + c.length > 8
    · rw [if_pos hbrk]
      by_cases hfit : o + c.length ≤ 8
      · have hc : c.length = 0 := by omega
        have hc' : c = [] := List.length_eq_zero.mp hc
        subst hc'
        simp only [List.length_nil, Nat.add_zero] at hfit hbrk ⊢
        rw [if_pos hfit]
        have hj := spec_cluster_fit_join_eq_nil (show (8:Nat) ≤ o by omega) cs
        rw [List.flatten_cons, List.nil_append, hj]
        rfl
      · rw [if_neg hfit]
        rfl
    · rw [if_neg hbrk, if_pos (by omega)]
      rw [ih (o + c.length)]
      simp
      omega

theorem take_module_name_size (o : Nat) (cs : List (List Nat)) :
    cs.flatten.take (module_name_size o cs - o) = (spec_cluster_fit o cs).flatten := by
  induction cs generalizing o with
  | nil => simp [module_name_size, spec_cluster_fit]
  | cons c cs ih =>
    unfold module_name_size spec_cluster_fit
    by_cases hbrk : o > 7 ∨ o + c.length > 8
    · rw [if_pos hbrk]
      by_cases hfit : o + c.length ≤ 8
      · have hc : c.length = 0 := by omega
        have hc' : c = [] := List.length_eq_zero.mp hc
        subst hc'
        simp only [List.length_nil, Nat.add_zero] at hfit hbrk ⊢
        rw [if_pos hfit]
        have hj := spec_cluster_fit_join_eq_nil (show (8:Nat) ≤ o by omega) cs
        simp only [List.flatten_cons, List.nil_append, hj, Nat.sub_self, List.take_zero]
      · rw [if_neg hfit]
        simp
    · rw [if_neg hbrk, if_pos (by omega)]
      have hge := module_name_size_ge (o + c.length) cs
      simp only [List.flatten_cons]
      rw [List.take_append_eq_append_take,
        List.take_of_length_le (by omega),
        Nat.sub_sub, ih (o + c.length)]

theorem mapM_option_congr {α β : Type} (f g : α → Option β) (l : List α)
    (h : ∀ a ∈ l, f a = g a) : l.mapM f = l.mapM g := by
  induction l with
  | nil => rfl
  | cons x xs ih =>
    simp only [List.mapM_cons]
    rw [h x (List.mem_cons_self x xs), ih (fun a ha => h a (List.mem_cons_of_mem x ha))]

theorem sectionDisplay_env_congr (dis : Nat → String) (lossy : List Nat → String)
    (lcAll lang lcAll' lang' : Option String) (opts : Options) (s : Section)
    (h : no_bss s) :
    sectionDisplay dis lossy lcAll lang opts s
      = sectionDisplay dis lossy lcAll' lang' opts s := by
  cases s
  case BSS => simp [no_bss] at h
  all_goals rfl

theorem objDisplay_env_congr (dis : Nat → String) (lossy : List Nat → String)
    (lcAll lang lcAll' lang' : Option String) (opts : Options) (o : OBJ)
    (h : ∀ s ∈ o.sections, no_bss s) :
    objDisplay dis lossy lcAll lang opts o
      = objDisplay dis lossy lcAll' lang' opts o := by
  unfold objDisplay
  rw [mapM_option_congr _ _ _ (fun s hs =>
    sectionDisplay_env_congr dis lossy lcAll lang lcAll' lang' opts s (h s hs))]

theorem daysInMonth_le_31 (y m : Nat) : daysInMonth y m ≤ 31 := by
  unfold daysInMonth
  split
  · split <;> omega
  · split <;> omega

theorem date_to_psyq_arith (df : DateFields) :
    date_to_psyq df =
      (df.year - 1980) % 128 * 512 + df.month % 16 * 32 + df.day % 32 := by
  unfold date_to_psyq
  simp only [and_mask_127, and_mask_15, and_mask_31, Nat.shiftLeft_eq]
  norm_num
  rw [lor_eq_add 9 (a := (df.year - 1980) % 128 * 512) (b := df.month % 16 * 32)
      (by omega) (by omega),
    lor_eq_add 5 (a := (df.year - 1980) % 128 * 512 + df.month % 16 * 32)
      (b := df.day % 32) (by omega) (by omega)]

theorem time_to_psyq_arith (tf : TimeFields) (hs : tf.second / 2 < 32) :
    time_to_psyq tf =
      tf.hour % 32 * 134217728 + tf.minute % 64 * 2097152 + tf.second / 2 * 65536 := by
  unfold time_to_psyq
  simp only [and_mask_31, and_mask_63, Nat.shiftLeft_eq]
  norm_num
  rw [lor_eq_add 27 (a := tf.hour % 32 * 134217728) (b := tf.minute % 64 * 2097152)
      (by omega) (by omega),
    lor_eq_add 21 (a := tf.hour % 32 * 134217728 + tf.minute % 64 * 2097152)
      (b := tf.second / 2 * 65536) (by omega) (by omega)]

theorem datetime_to_psyq_arith (p : DateFields × TimeFields) (hs : p.2.second / 2 < 32) :
    datetime_to_psyq p =
      (p.1.year - 1980) % 128 * 512 + p.1.month % 16 * 32 + p.1.day % 32
        + (p.2.hour % 32 * 134217728 + p.2.minute % 64 * 2097152 + p.2.second / 2 * 65536) := by
  unfold datetime_to_psyq
  rw [date_to_psyq_arith, time_to_psyq_arith p.2 hs, Nat.lor_comm,
    lor_eq_add 16
      (a := p.2.hour % 32 * 134217728 + p.2.minute % 64 * 2097152 + p.2.second / 2 * 65536)
      (b := (p.1.year - 1980) % 128 * 512 + p.1.month % 16 * 32 + p.1.day % 32)
      (by omega) (by omega)]
  omega

namespace Link

theorem char_le_iff_toNat (a b : Char) : a ≤ b ↔ a.toNat ≤ b.toNat := by
  rw [Char.le_def, UInt32.le_def, BitVec.le_def]
  exact Iff.rfl

theorem char_eq_iff_toNat (a b : Char) : a = b ↔ a.toNat = b.toNat := by
  constructor
  · intro h; rw [h]
  · intro h
    apply Char.ext
    apply UInt32.eq_of_toBitVec_eq
    apply BitVec.eq_of_toNat_eq
    exact h

theorem isAlphaChar_iff (c : Char) :
    isAlphaChar c = true ↔
      (97 ≤ c.toNat ∧ c.toNat ≤ 122) ∨ (65 ≤ c.toNat ∧ c.toNat ≤ 90) := by
  simp only [isAlphaChar, Bool.or_eq_true, Bool.and_eq_true, decide_eq_true_eq,
    char_le_iff_toNat]
  exact Iff.rfl

theorem isDigitChar_iff (c : Char) :
    isDigitChar c = true ↔ 48 ≤ c.toNat ∧ c.toNat ≤ 57 := by
  simp only [isDigitChar, Bool.and_eq_true, decide_eq_true_eq, char_le_iff_toNat]
  exact Iff.rfl

theorem isSpaceTab_iff (c : Char) :
    isSpaceTab c = true ↔ c.toNat = 32 ∨ c.toNat = 9 := by
  simp only [isSpaceTab, Bool.or_eq_true, decide_eq_true_eq, char_eq_iff_toNat]
  exact Iff.rfl

theorem isSymbolFirst_iff (c : Char) :
    isSymbolFirst c = true ↔
      ((97 ≤ c.toNat ∧ c.toNat ≤ 122) ∨ (65 ≤ c.toNat ∧ c.toNat ≤ 90))
        ∨ c.toNat = 95 := by
  simp only [isSymbolFirst, Bool.or_eq_true, decide_eq_true_eq, isAlphaChar_iff,
    char_eq_iff_toNat]
  exact Iff.rfl

theorem isSymbolRest_iff (c : Char) :
    isSymbolRest c = true ↔
      ((97 ≤ c.toNat ∧ c.toNat ≤ 122) ∨ (65 ≤ c.toNat ∧ c.toNat ≤ 90))
        ∨ (48 ≤ c.toNat ∧ c.toNat ≤ 57)
        ∨ c.toNat = 63 ∨ c.toNat = 95 ∨ c.toNat = 46 := by
  simp only [isSymbolRest, Bool.or_eq_true, decide_eq_true_eq, isAlphaChar_iff,
    isDigitChar_iff, char_eq_iff_toNat]
  rw [show ('?').toNat = 63 from rfl, show ('_').toNat = 95 from rfl,
    show ('.').toNat = 46 from rfl]
  tauto

theorem symbolFirst_not_space {c : Char} (h : isSymbolFirst c = true) :
    isSpaceTab c = false := by
  rw [Bool.eq_false_iff]
  intro hsp
  rw [isSpaceTab_iff] at hsp
  rw [isSymbolFirst_iff] at h
  omega

theorem symbolFirst_not_digit {c : Char} (h : isSymbolFirst c = true) :
    isDigitChar c = false := by
  rw [Bool.eq_false_iff]
  intro hd
  rw [isDigitChar_iff] at hd
  rw [isSymbolFirst_iff] at h
  omega

theorem symbolFirst_ne {c : Char} (d : Char) (h : isSymbolFirst c = true)
    (hd : isSymbolFirst d = false) : c ≠ d := by
  intro he
  rw [he, hd] at h
  exact Bool.false_ne_true h

theorem symbolRest_ne {c : Char} (d : Char) (h : isSymbolRest c = true)
    (hd : isSymbolRest d = false) : c ≠ d := by
  intro he
  rw [he, hd] at h
  exact Bool.false_ne_true h

/-- `takeWhile`/`dropWhile` across a block of accepted characters followed by
a rejected one. -/
theorem takeWhile_dropWhile_append {p : Char → Bool} {l1 : List Char} {x : Char}
    (l2 : List Char) (h : ∀ c ∈ l1, p c = true) (hx : p x = false) :
    (l1 ++ x :: l2).takeWhile p = l1 ∧ (l1 ++ x :: l2).dropWhile p = x :: l2 := by
  induction l1 with
  | nil => simp [List.takeWhile_cons, List.dropWhile_cons, hx]
  | cons a l1 ih =>
    have ha : p a = true := h a (List.mem_cons_self a l1)
    have ih' := ih (fun c hc => h c (List.mem_cons_of_mem a hc))
    simp [List.takeWhile_cons, List.dropWhile_cons, ha, ih'.1, ih'.2]

/-- Every alternative of `pAlts (qs.map pLit)` either fails with a backtrack
or commits to the first matching literal. -/
theorem pAlts_pLit_cases (qs : List (List Char)) (inp : List Char) :
    pAlts (qs.map pLit) inp = PRes.back ∨
      ∃ q ∈ qs, pAlts (qs.map pLit) inp = PRes.ok q (inp.drop q.length) ∧
        q.isPrefixOf inp = true := by
  induction qs with
  | nil => exact Or.inl rfl
  | cons q qs ih =>
    simp only [List.map_cons, pAlts, List.foldr_cons]
    by_cases hp : q.isPrefixOf inp = true
    · refine Or.inr ⟨q, List.mem_cons_self q qs, ?_, hp⟩
      simp [pAlt, pLit, hp]
    · have hlit : pLit q inp = PRes.back := by
        simp [pLit, hp]
      rcases ih with hback | ⟨q', hq', heq, hpre⟩
      · left
        simp only [pAlt, hlit]
        simpa [pAlts] using hback
      · right
        refine ⟨q', List.mem_cons_of_mem q hq', ?_, hpre⟩
        simp only [pAlt, hlit]
        simpa [pAlts] using heq

/-- The ten function-like names are nonempty all-letter strings. -/
theorem function_names_alpha :
    ∀ q ∈ function_names, q ≠ [] ∧ ∀ c ∈ q, isAlphaChar c = true := by
  decide

/-- Splitting a successful `pBind`. -/
theorem pBind_ok {α β : Type} {p : Parser α} {a : α} {r inp : List Char}
    (k : α → Parser β) (h : p inp = PRes.ok a r) : pBind p k inp = k a r := by
  simp [pBind, h]

/-- A `pBind` whose first parser backtracks backtracks. -/
theorem pBind_back {α β : Type} {p : Parser α} {inp : List Char}
    (k : α → Parser β) (h : p inp = PRes.back) : pBind p k inp = PRes.back := by
  simp [pBind, h]

/-- `pAlt` falls through on a backtrack of its first alternative. -/
theorem pAlt_back {α : Type} {p : Parser α} {inp : List Char} (q : Parser α)
    (h : p inp = PRes.back) : pAlt p q inp = q inp := by
  simp [pAlt, h]

/-- `pAlt` commits on a success of its first alternative. -/
theorem pAlt_ok {α : Type} {p : Parser α} {a : α} {r inp : List Char} (q : Parser α)
    (h : p inp = PRes.ok a r) : pAlt p q inp = PRes.ok a r := by
  simp [pAlt, h]

/-- The function-call branch of `parse_primary` backtracks on an identifier
that is not one of the ten function names, followed by `(`: whichever
function-name literal matches a prefix of the input, the next character is
never the required `(`. -/
theorem function_branch_back (f : Nat) (first : Char) (restId rest : List Char)
    (h2 : ∀ c ∈ restId, isSymbolRest c = true)
    (h3 : (first :: restId) ∉ function_names) :
    (pBind parse_function_name fun name =>
        pBind (pChar '(') fun _ =>
          pBind (parse_expressionF f) fun arg =>
            pBind (pChar ')') fun _ =>
              pPure (Expression.Function name arg))
      (first :: (restId ++ '(' :: rest)) = PRes.back := by
  rcases pAlts_pLit_cases function_names (first :: (restId ++ '(' :: rest)) with
    hb | ⟨q, hq, heq, hpre⟩
  · exact pBind_back _ hb
  · obtain ⟨hne, halpha⟩ := function_names_alpha q hq
    obtain ⟨t, ht⟩ := List.isPrefixOf_iff_prefix.mp hpre
    have heq' : parse_function_name (first :: (restId ++ '(' :: rest)) =
        PRes.ok q ((first :: (restId ++ '(' :: rest)).drop q.length) := heq
    rw [pBind_ok _ heq']
    have hdrop : (first :: (restId ++ '(' :: rest)).drop q.length = t := by
      rw [← ht]
      exact List.drop_left q t
    rw [hdrop]
    have ht' : q ++ t = (first :: restId) ++ ('(' :: rest) := ht
    rcases List.append_eq_append_iff.mp ht' with ⟨a', hca, hba⟩ | ⟨c', hac, hdc⟩
    · cases a' with
      | nil =>
        have hqe : q = first :: restId := by simpa using hca.symm
        exact absurd (hqe ▸ hq) h3
      | cons y ys =>
        cases q with
        | nil => exact absurd rfl hne
        | cons qh qt =>
          have hrest : restId = qt ++ y :: ys := by
            have := hca
            simp only [List.cons_append, List.cons.injEq] at this
            exact this.2
          have hy : isSymbolRest y = true := by
            refine h2 y ?_
            rw [hrest]
            exact List.mem_append_right qt (List.mem_cons_self y ys)
          have hyne : y ≠ '(' := symbolRest_ne '(' hy (by decide)
          rw [hba]
          refine pBind_back _ ?_
          simp [pChar, hyne]
    · cases c' with
      | nil =>
        have hqe : q = first :: restId := by simpa using hac
        exact absurd (hqe ▸ hq) h3
      | cons x xs =>
        have hx : x = '(' := by
          have := hdc
          simp only [List.cons_append, List.cons.injEq] at this
          exact this.1.symm
        have hmem : x ∈ q := by
          rw [hac]
          exact List.mem_append_right _ (List.mem_cons_self x xs)
        have := halpha x hmem
        rw [hx] at this
        exact absurd this (by decide)

/-- `parse_primary` on an identifier that is not a function name, followed by
`(`, succeeds with the plain symbol and leaves the `(` unconsumed. -/
theorem primary_symbol (f : Nat) (first : Char) (restId rest : List Char)
    (h1 : isSymbolFirst first = true)
    (h2 : ∀ c ∈ restId, isSymbolRest c = true)
    (h3 : (first :: restId) ∉ function_names) :
    parse_primaryF (f + 1) (first :: (restId ++ '(' :: rest)) =
      PRes.ok (Expression.Symbol (first :: restId)) ('(' :: rest) := by
  have hsp : isSpaceTab first = false := symbolFirst_not_space h1
  have hdg : isDigitChar first = false := symbolFirst_not_digit h1
  have hlp : first ≠ '(' := symbolFirst_ne '(' h1 (by decide)
  have hdl : first ≠ '$' := symbolFirst_ne '$' h1 (by decide)
  have hpc : first ≠ '%' := symbolFirst_ne '%' h1 (by decide)
  have hfn := function_branch_back f first restId rest h2 h3
  have hs0 : space0 (first :: (restId ++ '(' :: rest)) =
      PRes.ok [] (first :: (restId ++ '(' :: rest)) := by
    simp [space0, pTakeWhile0, List.takeWhile_cons, List.dropWhile_cons, hsp]
  have hpar : (pBind (pChar '(') fun _ =>
      pBind (parse_expressionF f) fun e =>
        pBind (pChar ')') fun _ =>
          pPure (Expression.Parens e)) (first :: (restId ++ '(' :: rest)) =
      PRes.back := by
    refine pBind_back _ ?_
    simp [pChar, hlp]
  have hint : pMap Expression.Constant parse_integer_constant
      (first :: (restId ++ '(' :: rest)) = PRes.back := by
    simp [pMap, pBind, pPure, parse_integer_constant, parse_decimal_digits,
      parse_prefixed_digits, pAlt, pCut, pChar, pFail, pTakeWhile1,
      List.takeWhile_cons, hdg, hdl, hpc]
  obtain ⟨htk, hdr⟩ :=
    takeWhile_dropWhile_append (p := isSymbolRest) (x := '(') rest h2 (by decide)
  have hsym : pMap Expression.Symbol parse_symbol
      (first :: (restId ++ '(' :: rest)) =
      PRes.ok (Expression.Symbol (first :: restId)) ('(' :: rest) := by
    simp [pMap, pBind, pPure, parse_symbol, pTake1, pTakeWhile0, h1, htk, hdr]
  simp only [parse_primaryF]
  rw [pBind_ok _ hs0]
  rw [pAlt_back _ hfn, pAlt_back _ hpar, pAlt_back _ hint, pAlt_ok _ hsym]

/-- `parse_binary_op` backtracks when the input starts with `(`. -/
theorem parse_binary_op_lparen (rest : List Char) :
    parse_binary_op ('(' :: rest) = PRes.back := by
  simp +decide [parse_binary_op, pBind, space0, pTakeWhile0, List.takeWhile_cons,
    List.dropWhile_cons, pAlts, pAlt, pMap, pPure, pLit, pChar, pFail,
    List.isPrefixOf, isSpaceTab]

/-- The precedence-climbing loop stops when the input starts with `(`. -/
theorem parse_binary_rhsF_lparen (f minPrec : Nat) (lhs : Expression)
    (rest : List Char) :
    parse_binary_rhsF (f + 1) minPrec lhs ('(' :: rest) =
      PRes.ok lhs ('(' :: rest) := by
  have h := parse_binary_op_lparen rest
  simp [parse_binary_rhsF, pOpt, h]

/-- `parse_unary` on an identifier first character is `parse_primary`. -/
theorem parse_unaryF_symbol (f : Nat) (first : Char) (tail : List Char)
    (h1 : isSymbolFirst first = true) :
    parse_unaryF (f + 1) (first :: tail) = parse_primaryF f (first :: tail) := by
  have hsp : isSpaceTab first = false := symbolFirst_not_space h1
  have hm : first ≠ '-' := symbolFirst_ne '-' h1 (by decide)
  have htl : first ≠ '~' := symbolFirst_ne '~' h1 (by decide)
  have hex : first ≠ '!' := symbolFirst_ne '!' h1 (by decide)
  simp [parse_unaryF, pBind, space0, pTakeWhile0, List.takeWhile_cons,
    List.dropWhile_cons, hsp, pAlt, pChar, hm, htl, hex, pMap, pCut]

/-- A character whose ASCII lower-casing is a letter is not a space or tab. -/
theorem not_space_of_asciiLower_alpha {c d : Char} (hd : isAlphaChar d = true)
    (h : asciiLower c = d) : isSpaceTab c = false := by
  rw [Bool.eq_false_iff]
  intro hst
  rw [isSpaceTab_iff] at hst
  have hc : asciiLower c = c := by
    unfold asciiLower
    rw [if_neg]
    intro hAZ
    obtain ⟨hA, _⟩ := hAZ
    rw [char_le_iff_toNat] at hA
    rw [show ('A').toNat = 65 from rfl] at hA
    omega
  rw [hc] at h
  subst h
  rw [isAlphaChar_iff] at hd
  omega

/-- A character whose ASCII lower-casing is a letter is itself a letter. -/
theorem alpha_of_lower {c d : Char} (hd : isAlphaChar d = true)
    (h : asciiLower c = d) : isAlphaChar c = true := by
  unfold asciiLower at h
  by_cases hAZ : ('A' ≤ c ∧ c ≤ 'Z')
  · rw [isAlphaChar_iff]
    obtain ⟨hA, hZ⟩ := hAZ
    rw [char_le_iff_toNat] at hA hZ
    rw [show ('A').toNat = 65 from rfl] at hA
    rw [show ('Z').toNat = 90 from rfl] at hZ
    omega
  · rw [if_neg hAZ] at h
    subst h
    exact hd

/-- Every character of a string whose lower-casing is an all-letter word is a
letter. -/
theorem alpha_of_map_lower {cs kw : List Char} (h : cs.map asciiLower = kw)
    (hkw : ∀ d ∈ kw, isAlphaChar d = true) : ∀ c ∈ cs, isAlphaChar c = true := by
  intro c hc
  have hm : asciiLower c ∈ kw := h ▸ List.mem_map_of_mem asciiLower hc
  exact alpha_of_lower (hkw _ hm) rfl

/-- A letter may start an identifier. -/
theorem symbolFirst_of_alpha {c : Char} (h : isAlphaChar c = true) :
    isSymbolFirst c = true := by
  simp [isSymbolFirst, h]

/-- A letter may continue an identifier. -/
theorem symbolRest_of_alpha {c : Char} (h : isAlphaChar c = true) :
    isSymbolRest c = true := by
  simp [isSymbolRest, h]

/-- `space0` consumes nothing before a non-space character. -/
theorem space0_cons_nonspace {c0 : Char} (cs : List Char)
    (h : isSpaceTab c0 = false) : space0 (c0 :: cs) = PRes.ok [] (c0 :: cs) := by
  simp [space0, pTakeWhile0, List.takeWhile_cons, List.dropWhile_cons, h]

/-- `space1` consumes exactly one space before a non-space character. -/
theorem space1_cons_nonspace {c0 : Char} (cs : List Char)
    (h : isSpaceTab c0 = false) :
    space1 (' ' :: c0 :: cs) = PRes.ok [' '] (c0 :: cs) := by
  simp +decide [space1, pTakeWhile1, List.takeWhile_cons, List.dropWhile_cons, h]

/-- `Caseless(lit)` consumes exactly a block whose lower-casing agrees with
the literal's. -/
theorem pCaseless_exact {cs : List Char} (kw suffix : List Char)
    (hcs : cs.map asciiLower = kw.map asciiLower) :
    pCaseless kw (cs ++ suffix) = PRes.ok cs suffix := by
  have hlen : kw.length = cs.length := by
    have h := congrArg List.length hcs
    simpa using h.symm
  unfold pCaseless
  rw [hlen, List.take_left, List.drop_left, if_pos hcs]

/-- `parse_symbol` consumes exactly an identifier block followed by a
non-identifier character. -/
theorem parse_symbol_exact {c0 : Char} {cs' : List Char} {x : Char}
    (rest : List Char) (h0 : isSymbolFirst c0 = true)
    (h : ∀ c ∈ cs', isSymbolRest c = true) (hx : isSymbolRest x = false) :
    parse_symbol (c0 :: (cs' ++ x :: rest)) = PRes.ok (c0 :: cs') (x :: rest) := by
  obtain ⟨htk, hdr⟩ :=
    takeWhile_dropWhile_append (p := isSymbolRest) (x := x) rest h hx
  simp [parse_symbol, pBind, pTake1, pTakeWhile0, pPure, h0, htk, hdr]

/-- A cased keyword splits into a head letter and a cased tail. -/
theorem cased_cons {cs : List Char} {d : Char} {ds : List Char}
    (hcs : cs.map asciiLower = d :: ds) (hd : isAlphaChar d = true) :
    ∃ c0 cs', cs = c0 :: cs' ∧ asciiLower c0 = d ∧ cs'.map asciiLower = ds ∧
      isSpaceTab c0 = false ∧ isAlphaChar c0 = true := by
  cases cs with
  | nil => simp at hcs
  | cons c0 cs' =>
    simp only [List.map_cons, List.cons.injEq] at hcs
    exact ⟨c0, cs', rfl, hcs.1, hcs.2,
      not_space_of_asciiLower_alpha hd hcs.1, alpha_of_lower hd hcs.1⟩

/-- The common `space0, Caseless(kw)` header of the command parsers consumes
exactly a cased spelling of the keyword. -/
theorem caseless_header {α : Type} (kw : List Char) (p : Parser α)
    {c0 : Char} {cs' : List Char} (suffix : List Char)
    (hkw : (c0 :: cs').map asciiLower = kw.map asciiLower)
    (hns : isSpaceTab c0 = false) :
    (pBind space0 fun _ => pBind (pCaseless kw) fun _ => p)
      (c0 :: (cs' ++ suffix)) = p suffix := by
  have hck := pCaseless_exact kw suffix hkw
  simp only [List.cons_append] at hck
  rw [pBind_ok _ (space0_cons_nonspace _ hns)]
  try dsimp only
  rw [pBind_ok _ hck]

/-- `parse_command_generic_filename` accepts any casing of its keyword. -/
theorem generic_filename_caseless (kw : List Char) {c0 : Char} {cs' : List Char}
    (hkw : (c0 :: cs').map asciiLower = kw.map asciiLower)
    (hns : isSpaceTab c0 = false) :
    parse_command_generic_filename kw
        ((c0 :: cs') ++ (' ' :: '"' :: 'a' :: '"' :: [])) =
      PRes.ok ['a'] [] := by
  simp only [parse_command_generic_filename, List.cons_append]
  rw [caseless_header kw _ (' ' :: '"' :: 'a' :: '"' :: []) hkw hns]
  decide

/-- `include`, in any casing, parses to `Command::Include`. -/
theorem cmd_include_caseless {cs : List Char}
    (hcs : cs.map asciiLower = "include".toList) :
    parse_command_include (cs ++ (' ' :: '"' :: 'a' :: '"' :: [])) =
      PRes.ok (Command.Include ['a']) [] := by
  obtain ⟨c0, cs', he, hc0, hcs', hns, _⟩ := cased_cons hcs (by decide)
  subst he
  have hkw : (c0 :: cs').map asciiLower = "include".toList.map asciiLower := by
    rw [hcs]; decide
  have hg := generic_filename_caseless "include".toList hkw hns
  simp only [parse_command_include, pMap]
  rw [pBind_ok _ hg]
  rfl

/-- `inclib`, in any casing, parses to `Command::IncLib`. -/
theorem cmd_inclib_caseless {cs : List Char}
    (hcs : cs.map asciiLower = "inclib".toList) :
    parse_command_inclib (cs ++ (' ' :: '"' :: 'a' :: '"' :: [])) =
      PRes.ok (Command.IncLib ['a']) [] := by
  obtain ⟨c0, cs', he, hc0, hcs', hns, _⟩ := cased_cons hcs (by decide)
  subst he
  have hkw : (c0 :: cs').map asciiLower = "inclib".toList.map asciiLower := by
    rw [hcs]; decide
  have hg := generic_filename_caseless "inclib".toList hkw hns
  simp only [parse_command_inclib, pMap]
  rw [pBind_ok _ hg]
  rfl

/-- `org`, in any casing, parses to `Command::Origin`. -/
theorem cmd_org_caseless {cs : List Char}
    (hcs : cs.map asciiLower = "org".toList) :
    parse_command_origin (cs ++ (' ' :: '1' :: [])) =
      PRes.ok (Command.Origin 1) [] := by
  obtain ⟨c0, cs', he, hc0, hcs', hns, _⟩ := cased_cons hcs (by decide)
  subst he
  have hkw : (c0 :: cs').map asciiLower = "org".toList.map asciiLower := by
    rw [hcs]; decide
  simp only [parse_command_origin, List.cons_append]
  rw [caseless_header "org".toList _ (' ' :: '1' :: []) hkw hns]
  decide

/-- `workspace`, in any casing, parses to `Command::Workspace`. -/
theorem cmd_workspace_caseless {cs : List Char}
    (hcs : cs.map asciiLower = "workspace".toList) :
    parse_command_workspace (cs ++ (' ' :: '1' :: [])) =
      PRes.ok (Command.Workspace 1) [] := by
  obtain ⟨c0, cs', he, hc0, hcs', hns, _⟩ := cased_cons hcs (by decide)
  subst he
  have hkw : (c0 :: cs').map asciiLower = "workspace".toList.map asciiLower := by
    rw [hcs]; decide
  simp only [parse_command_workspace, List.cons_append]
  rw [caseless_header "workspace".toList _ (' ' :: '1' :: []) hkw hns]
  decide

/-- `regs`, in any casing, parses to `Command::Regs`. -/
theorem cmd_regs_caseless {cs : List Char}
    (hcs : cs.map asciiLower = "regs".toList) :
    parse_command_regs (cs ++ (' ' :: 'r' :: '1' :: '=' :: '5' :: [])) =
      PRes.ok (Command.Regs ['r', '1'] (Expression.Constant 5)) [] := by
  obtain ⟨c0, cs', he, hc0, hcs', hns, _⟩ := cased_cons hcs (by decide)
  subst he
  have hkw : (c0 :: cs').map asciiLower = "regs".toList.map asciiLower := by
    rw [hcs]; decide
  simp only [parse_command_regs, List.cons_append]
  rw [caseless_header "regs".toList _ (' ' :: 'r' :: '1' :: '=' :: '5' :: []) hkw hns]
  decide

/-- `unit`, in any casing, parses to `Command::Unit`. -/
theorem cmd_unit_caseless {cs : List Char}
    (hcs : cs.map asciiLower = "unit".toList) :
    parse_command_unit (cs ++ (' ' :: '1' :: [])) =
      PRes.ok (Command.Unit 1) [] := by
  obtain ⟨c0, cs', he, hc0, hcs', hns, _⟩ := cased_cons hcs (by decide)
  subst he
  have hkw : (c0 :: cs').map asciiLower = "unit".toList.map asciiLower := by
    rw [hcs]; decide
  simp only [parse_command_unit, List.cons_append]
  rw [caseless_header "unit".toList _ (' ' :: '1' :: []) hkw hns]
  decide

/-- `public`, in any casing, parses to `Command::Public`. -/
theorem cmd_public_caseless {cs : List Char}
    (hcs : cs.map asciiLower = "public".toList) :
    parse_command_public (cs ++ (' ' :: 'o' :: 'n' :: [])) =
      PRes.ok (Command.Public true) [] := by
  obtain ⟨c0, cs', he, hc0, hcs', hns, _⟩ := cased_cons hcs (by decide)
  subst he
  have hkw : (c0 :: cs').map asciiLower = "public".toList.map asciiLower := by
    rw [hcs]; decide
  simp only [parse_command_public, List.cons_append]
  rw [caseless_header "public".toList _ (' ' :: 'o' :: 'n' :: []) hkw hns]
  decide

/-- `parse_command_generic_symbol_list` accepts any casing of its keyword. -/
theorem generic_symbol_list_caseless (kw : List Char) {c0 : Char}
    {cs' : List Char}
    (hkw : (c0 :: cs').map asciiLower = kw.map asciiLower)
    (hns : isSpaceTab c0 = false) :
    parse_command_generic_symbol_list kw ((c0 :: cs') ++ (' ' :: 's' :: [])) =
      PRes.ok [['s']] [] := by
  simp only [parse_command_generic_symbol_list, List.cons_append]
  rw [caseless_header kw _ (' ' :: 's' :: []) hkw hns]
  decide

/-- `global`, in any casing, parses to `Command::Global`. -/
theorem cmd_global_caseless {cs : List Char}
    (hcs : cs.map asciiLower = "global".toList) :
    parse_command_global (cs ++ (' ' :: 's' :: [])) =
      PRes.ok (Command.Global [['s']]) [] := by
  obtain ⟨c0, cs', he, hc0, hcs', hns, _⟩ := cased_cons hcs (by decide)
  subst he
  have hkw : (c0 :: cs').map asciiLower = "global".toList.map asciiLower := by
    rw [hcs]; decide
  have hg := generic_symbol_list_caseless "global".toList hkw hns
  simp only [parse_command_global, pMap]
  rw [pBind_ok _ hg]
  rfl

/-- `xdef`, in any casing, parses to `Command::XDef`. -/
theorem cmd_xdef_caseless {cs : List Char}
    (hcs : cs.map asciiLower = "xdef".toList) :
    parse_command_xdef (cs ++ (' ' :: 's' :: [])) =
      PRes.ok (Command.XDef [['s']]) [] := by
  obtain ⟨c0, cs', he, hc0, hcs', hns, _⟩ := cased_cons hcs (by decide)
  subst he
  have hkw : (c0 :: cs').map asciiLower = "xdef".toList.map asciiLower := by
    rw [hcs]; decide
  have hg := generic_symbol_list_caseless "xdef".toList hkw hns
  simp only [parse_command_xdef, pMap]
  rw [pBind_ok _ hg]
  rfl

/-- `xref`, in any casing, parses to `Command::XRef`. -/
theorem cmd_xref_caseless {cs : List Char}
    (hcs : cs.map asciiLower = "xref".toList) :
    parse_command_xref (cs ++ (' ' :: 's' :: [])) =
      PRes.ok (Command.XRef [['s']]) [] := by
  obtain ⟨c0, cs', he, hc0, hcs', hns, _⟩ := cased_cons hcs (by decide)
  subst he
  have hkw : (c0 :: cs').map asciiLower = "xref".toList.map asciiLower := by
    rw [hcs]; decide
  have hg := generic_symbol_list_caseless "xref".toList hkw hns
  simp only [parse_command_xref, pMap]
  rw [pBind_ok _ hg]
  rfl

/-- `group`, in any casing, parses to `Command::Group`. -/
theorem cmd_group_caseless {cs : List Char}
    (hcs : cs.map asciiLower = "group".toList) :
    parse_command_group ('g' :: ' ' :: cs) =
      PRes.ok (Command.Group ['g'] []) [] := by
  obtain ⟨c0, cs', he, hc0, hcs', hns, _⟩ := cased_cons hcs (by decide)
  subst he
  have hkw : (c0 :: cs').map asciiLower = "group".toList.map asciiLower := by
    rw [hcs]; decide
  have hck := pCaseless_exact "group".toList [] hkw
  rw [List.append_nil] at hck
  have hg : isSpaceTab 'g' = false := by decide
  have hsym : parse_symbol ('g' :: ([] ++ ' ' :: c0 :: cs')) =
      PRes.ok ['g'] (' ' :: c0 :: cs') :=
    parse_symbol_exact (c0 :: cs') (by decide) (by decide) (by decide)
  simp only [List.nil_append] at hsym
  simp only [parse_command_group]
  rw [pBind_ok _ (space0_cons_nonspace _ hg)]
  try dsimp only
  rw [pBind_ok _ hsym]
  try dsimp only
  rw [pBind_ok _ (space1_cons_nonspace cs' hns)]
  try dsimp only
  rw [pBind_ok _ hck]
  decide

/-- `alias`, in any casing, parses to `Command::Alias`. -/
theorem cmd_alias_caseless {cs : List Char}
    (hcs : cs.map asciiLower = "alias".toList) :
    parse_command_alias ('a' :: ' ' :: (cs ++ (' ' :: 'b' :: []))) =
      PRes.ok (Command.Alias ['a'] ['b']) [] := by
  obtain ⟨c0, cs', he, hc0, hcs', hns, _⟩ := cased_cons hcs (by decide)
  subst he
  have hkw : (c0 :: cs').map asciiLower = "alias".toList.map asciiLower := by
    rw [hcs]; decide
  have hck := pCaseless_exact "alias".toList (' ' :: 'b' :: []) hkw
  simp only [List.cons_append] at hck
  have ha : isSpaceTab 'a' = false := by decide
  have hsym : parse_symbol ('a' :: ([] ++ ' ' :: (c0 :: (cs' ++ ' ' :: 'b' :: [])))) =
      PRes.ok ['a'] (' ' :: (c0 :: (cs' ++ ' ' :: 'b' :: []))) :=
    parse_symbol_exact (c0 :: (cs' ++ ' ' :: 'b' :: [])) (by decide) (by decide)
      (by decide)
  simp only [List.nil_append] at hsym
  simp only [parse_command_alias, List.cons_append]
  rw [pBind_ok _ (space0_cons_nonspace _ ha)]
  try dsimp only
  rw [pBind_ok _ hsym]
  try dsimp only
  rw [pBind_ok _ (space1_cons_nonspace _ hns)]
  try dsimp only
  rw [pBind_ok _ hck]
  decide

/-- `section`, in any casing, parses to `Command::Section` (through the
`with_name` form; the `with_attributes` form backtracks). -/
theorem cmd_section_caseless {cs : List Char}
    (hcs : cs.map asciiLower = "section".toList) :
    parse_command_section (cs ++ (' ' :: 's' :: [])) =
      PRes.ok (Command.Section ['s'] none []) [] := by
  obtain ⟨c0, cs', he, hc0, hcs', hns, hal⟩ := cased_cons hcs (by decide)
  subst he
  have hkw : (c0 :: cs').map asciiLower = "section".toList.map asciiLower := by
    rw [hcs]; decide
  have halrest : ∀ c ∈ cs', isSymbolRest c = true := by
    intro c hc
    exact symbolRest_of_alpha
      (alpha_of_map_lower hcs' (by decide) c hc)
  have hsym : parse_symbol (c0 :: (cs' ++ ' ' :: 's' :: [])) =
      PRes.ok (c0 :: cs') (' ' :: 's' :: []) :=
    parse_symbol_exact (('s' :: []) : List Char) (symbolFirst_of_alpha hal)
      halrest (by decide)
  have hs : isSpaceTab 's' = false := by decide
  have hwa : parse_command_section_with_attributes
      ((c0 :: cs') ++ (' ' :: 's' :: [])) = PRes.back := by
    simp only [parse_command_section_with_attributes, List.cons_append]
    rw [pBind_ok _ (space0_cons_nonspace _ hns)]
    try dsimp only
    rw [pBind_ok _ hsym]
    try dsimp only
    rw [pBind_ok _ (space1_cons_nonspace ([] : List Char) hs)]
    try dsimp only
    refine pBind_back _ ?_
    decide
  have hwn : parse_command_section_with_name
      ((c0 :: cs') ++ (' ' :: 's' :: [])) =
      PRes.ok (Command.Section ['s'] none []) [] := by
    simp only [parse_command_section_with_name, List.cons_append]
    rw [caseless_header "section".toList _ (' ' :: 's' :: []) hkw hns]
    decide
  simp only [parse_command_section]
  rw [pAlt_back _ hwa]
  exact hwn
theorem parse_expressionF_symbol_call (f : Nat) (first : Char)
    (restId rest : List Char)
    (h1 : isSymbolFirst first = true)
    (h2 : ∀ c ∈ restId, isSymbolRest c = true)
    (h3 : (first :: restId) ∉ function_names) :
    parse_expressionF (f + 3) (first :: (restId ++ '(' :: rest)) =
      PRes.ok (Expression.Symbol (first :: restId)) ('(' :: rest) := by
  have hu : parse_unaryF (f + 2) (first :: (restId ++ '(' :: rest)) =
      parse_primaryF (f + 1) (first :: (restId ++ '(' :: rest)) :=
    parse_unaryF_symbol (f + 1) first _ h1
  have hp := primary_symbol f first restId rest h1 h2 h3
  have hr : parse_binary_rhsF (f + 2) 0 (Expression.Symbol (first :: restId))
      ('(' :: rest) = PRes.ok (Expression.Symbol (first :: restId)) ('(' :: rest) :=
    parse_binary_rhsF_lparen (f + 1) 0 _ rest
  show parse_expressionF ((f + 2) + 1) (first :: (restId ++ '(' :: rest)) =
    PRes.ok (Expression.Symbol (first :: restId)) ('(' :: rest)
  simp only [parse_expressionF]
  rw [hu, hp]
  exact hr

end Link

end Psyx

/-- C2: for every 32-bit word on which timestamp decode succeeds, re-encoding the
decoded calendar fields yields the word again; and for every field tuple within
legal calendar ranges (year 1980..2107, valid Gregorian month/day, hour ≤ 23,
minute ≤ 59, second ≤ 59), decoding the encoded word returns the same tuple with
the seconds normalized to even. -/
theorem C2_timestamp_round_trip :
    (∀ t p, t < 2 ^ 32 → Psyx.datetime_from_psyq t = some p →
      Psyx.datetime_to_psyq p = t) ∧
    (∀ y mo d h mi s : Nat, 1980 ≤ y → y ≤ 2107 → 1 ≤ mo → mo ≤ 12 → 1 ≤ d →
      d ≤ Psyx.daysInMonth y mo → h ≤ 23 → mi ≤ 59 → s ≤ 59 →
      Psyx.datetime_from_psyq (Psyx.datetime_to_psyq (⟨y, mo, d⟩, ⟨h, mi, s⟩)) =
        some (⟨y, mo, d⟩, ⟨h, mi, 2 * (s / 2)⟩)) := by
  constructor
  · intro t p ht h
    simp only [Psyx.datetime_from_psyq, Option.pure_def, Option.bind_eq_bind,
      Option.bind_eq_some] at h
    obtain ⟨df, hdf, tf, htf, hp⟩ := h
    simp only [Psyx.date_from_psyq, Psyx.from_ymd_opt, Psyx.and_mask_65535,
      Psyx.and_mask_127, Psyx.and_mask_15, Psyx.and_mask_31,
      Psyx.shr_5, Psyx.shr_9] at hdf
    simp only [Psyx.time_from_psyq, Psyx.from_hms_opt, Psyx.and_mask_31,
      Psyx.and_mask_63, Psyx.shr_5, Psyx.shr_11, Psyx.shr_16] at htf
    split at hdf
    · split at htf
      · injection hdf with hdf'
        injection htf with htf'
        injection hp with hp'
        subst hdf' htf' hp'
        rw [Psyx.datetime_to_psyq_arith _ (by dsimp only; omega)]
        dsimp only
        omega
      · exact absurd htf (by simp)
    · exact absurd hdf (by simp)
  · intro y mo d h mi s hy1 hy2 hmo1 hmo2 hd1 hd2 hh hmi hs
    rw [Psyx.datetime_to_psyq_arith _ (by dsimp only; omega)]
    try dsimp only
    simp only [Psyx.datetime_from_psyq, Psyx.date_from_psyq, Psyx.time_from_psyq,
      Psyx.from_ymd_opt, Psyx.from_hms_opt, Psyx.and_mask_65535, Psyx.and_mask_127,
      Psyx.and_mask_15, Psyx.and_mask_31, Psyx.and_mask_63,
      Psyx.shr_5, Psyx.shr_9, Psyx.shr_11, Psyx.shr_16,
      Option.pure_def, Option.bind_eq_bind]
    have hd31 : d ≤ 31 := hd2.trans (Psyx.daysInMonth_le_31 y mo)
    have hD : ((y - 1980) % 128 * 512 + mo % 16 * 32 + d % 32
        + (h % 32 * 134217728 + mi % 64 * 2097152 + s / 2 * 65536)) % 65536
        = (y - 1980) % 128 * 512 + mo % 16 * 32 + d % 32 := by omega
    have hT : ((y - 1980) % 128 * 512 + mo % 16 * 32 + d % 32
        + (h % 32 * 134217728 + mi % 64 * 2097152 + s / 2 * 65536)) / 65536
        = h % 32 * 2048 + mi % 64 * 32 + s / 2 := by omega
    rw [hD, hT]
    have e1 : ((y - 1980) % 128 * 512 + mo % 16 * 32 + d % 32) / 512 % 128 + 1980 = y := by
      omega
    have e2 : ((y - 1980) % 128 * 512 + mo % 16 * 32 + d % 32) / 32 % 16 = mo := by omega
    have e3 : ((y - 1980) % 128 * 512 + mo % 16 * 32 + d % 32) % 32 = d := by omega
    have e4 : (h % 32 * 2048 + mi % 64 * 32 + s / 2) / 2048 % 32 = h := by omega
    have e5 : (h % 32 * 2048 + mi % 64 * 32 + s / 2) / 32 % 64 = mi := by omega
    have e6 : (h % 32 * 2048 + mi % 64 * 32 + s / 2) % 32 * 2 = 2 * (s / 2) := by omega
    rw [e1, e2, e3, e4, e5, e6]
    rw [if_pos ⟨hmo1, hmo2, hd1, hd2⟩, if_pos ⟨by omega, by omega, by omega⟩]
    rfl

/-- Witness for C2 at the word 0x813320AF (1996-05-15 16:09:38) and at the
corresponding field tuple. -/
theorem C2_timestamp_round_trip_witness :
    ((0x813320AF : Nat) < 2 ^ 32 ∧
      Psyx.datetime_from_psyq 0x813320AF = some (⟨1996, 5, 15⟩, ⟨16, 9, 38⟩) ∧
      Psyx.datetime_to_psyq (⟨1996, 5, 15⟩, ⟨16, 9, 38⟩) = 0x813320AF) ∧
    Psyx.datetime_from_psyq (Psyx.datetime_to_psyq (⟨1996, 5, 15⟩, ⟨16, 9, 38⟩)) =
      some (⟨1996, 5, 15⟩, ⟨16, 9, 2 * (38 / 2)⟩) :=
  ⟨⟨by decide, by decide,
      C2_timestamp_round_trip.1 0x813320AF (⟨1996, 5, 15⟩, ⟨16, 9, 38⟩) (by decide)
        (by decide)⟩,
    C2_timestamp_round_trip.2 1996 5 15 16 9 38 (by decide) (by decide) (by decide)
      (by decide) (by decide) (by decide) (by decide) (by decide) (by decide)⟩

/-- C7: for every module metadata record built from a path and its OBJ, the
stored offset equals 20 plus the sum over all export entries (including the
zero-length terminator) of (1 + name length), and the stored size equals that
offset plus the byte length of the source OBJ.  Stated under the benign
conditions that every export name is shorter than 256 bytes and that the
32-bit fields do not overflow. -/
theorem C7_module_metadata_offset_size (name : List Nat) (created objLen : Nat)
    (objExports : List (List Nat))
    (hnames : ∀ b ∈ objExports, b.length < 256)
    (hsmall : 20 + (((objExports.map Psyx.Export.new ++ [Psyx.Export.empty]).map
        (fun e => 1 + e.name.length)).sum) + objLen < 4294967296) :
    (Psyx.ModuleMetadata.new_from_path name created objExports objLen).offset
      = 20 + (((Psyx.ModuleMetadata.new_from_path name created objExports objLen).exports).map
          (fun e => 1 + e.name.length)).sum ∧
    (Psyx.ModuleMetadata.new_from_path name created objExports objLen).size
      = (Psyx.ModuleMetadata.new_from_path name created objExports objLen).offset + objLen := by
  have key : ((objExports.map Psyx.Export.new ++ [Psyx.Export.empty]).map
        (fun e => 1 + e.name_size)).sum
      = ((objExports.map Psyx.Export.new ++ [Psyx.Export.empty]).map
        (fun e => 1 + e.name.length)).sum := by
    congr 1
    apply List.map_congr_left
    intro e he
    rcases List.mem_append.mp he with he | he
    · obtain ⟨b, hb, rfl⟩ := List.mem_map.mp he
      have hlt := hnames b hb
      simp [Psyx.Export.new, List.length_take]
      omega
    · simp only [List.mem_singleton] at he
      subst he
      rfl
  unfold Psyx.ModuleMetadata.new_from_path
  try dsimp only
  rw [key]
  constructor
  · exact Nat.mod_eq_of_lt (by omega)
  · rw [Nat.mod_eq_of_lt (by omega), Nat.mod_eq_of_lt (by omega),
      Nat.mod_eq_of_lt (by omega)]

/-- Witness for C7: a module with exports \x7b"exit"\x7d and a 112-byte OBJ. -/
theorem C7_module_metadata_offset_size_witness :
    (∀ b ∈ [[101, 120, 105, 116]], List.length b < 256) ∧
    (20 + ((([[101, 120, 105, 116]].map Psyx.Export.new ++ [Psyx.Export.empty]).map
        (fun e => 1 + e.name.length)).sum) + 112 < 4294967296) ∧
    (Psyx.ModuleMetadata.new_from_path [65, 53, 54, 32, 32, 32, 32, 32] 0x812C20AF
        [[101, 120, 105, 116]] 112).offset = 26 ∧
    (Psyx.ModuleMetadata.new_from_path [65, 53, 54, 32, 32, 32, 32, 32] 0x812C20AF
        [[101, 120, 105, 116]] 112).size = 138 := by
  refine ⟨by decide, by decide, ?_, ?_⟩
  · have h := (C7_module_metadata_offset_size [65, 53, 54, 32, 32, 32, 32, 32] 0x812C20AF 112
      [[101, 120, 105, 116]] (by decide) (by decide)).1
    rw [h]
    decide
  · have h := C7_module_metadata_offset_size [65, 53, 54, 32, 32, 32, 32, 32] 0x812C20AF 112
      [[101, 120, 105, 116]] (by decide) (by decide)
    rw [h.2, h.1]
    decide

set_option maxRecDepth 8192 in
/-- C10 (code bug): `Export::new` on a 256-byte name stores `name_size = 0`
(the truncating `as u8` cast of 256) while the stored name vector holds the
first 255 bytes, so the format invariant `name_size = name.len()` is violated. -/
theorem C10_export_new_name_size_bug :
    (Psyx.Export.new (List.replicate 256 97)).name_size = 0 ∧
    (Psyx.Export.new (List.replicate 256 97)).name.length = 255 ∧
    (Psyx.Export.new (List.replicate 256 97)).name_size ≠
      (Psyx.Export.new (List.replicate 256 97)).name.length := by
  refine ⟨?_, ?_, ?_⟩ <;>
    simp [Psyx.Export.new, List.length_take, List.length_replicate]

/-- C8: for every stem (given as the grapheme clusters of the uppercased
file-stem), the derived module name is an 8-byte array; if the stem is pure
7-bit ASCII the first min(len, 8) bytes are copied and the rest is 0x20
padding; otherwise grapheme clusters are copied in order only while they fit
entirely within 8 bytes (no cluster is ever split) and the rest is 0x20
padding — i.e. the code agrees with the spec-side description. -/
theorem C8_path_to_module_name (clusters : List (List Nat)) :
    (Psyx.path_to_module_name clusters).length = 8 ∧
    Psyx.path_to_module_name clusters = Psyx.module_name_spec clusters := by
  have hsize := Psyx.module_name_size_eq 0 clusters
  have hle8 := Psyx.module_name_size_le_8 (Nat.zero_le 8) clusters
  have htake := Psyx.take_module_name_size 0 clusters
  simp only [Nat.sub_zero, Nat.zero_add] at htake hsize
  have heq : Psyx.path_to_module_name clusters = Psyx.module_name_spec clusters := by
    simp only [Psyx.path_to_module_name, Psyx.module_name_spec]
    by_cases h : clusters.flatten.all (fun b => decide (b < 128))
    · rw [if_pos h, if_pos h]
    · rw [if_neg h, if_neg h, htake, hsize]
  refine ⟨?_, heq⟩
  rw [heq]
  simp only [Psyx.module_name_spec]
  by_cases h : clusters.flatten.all (fun b => decide (b < 128))
  · rw [if_pos h]
    simp [List.length_take]
  · rw [if_neg h]
    simp only [List.length_append, List.length_replicate]
    omega

/-- C3: an OBJ's observable exports are exactly the symbol names of XDEF
sections with non-zero name length together with the names of XBSS sections
with non-zero name length, in the order those sections occur, duplicates
preserved.  The hypothesis states the decoded-section invariant that each
one-byte size field counts the stored name bytes. -/
theorem C3_obj_exports (o : Psyx.OBJ)
    (h : ∀ s ∈ o.sections, Psyx.section_sizes_ok s) :
    o.exports = Psyx.exports_spec o.sections := by
  unfold Psyx.OBJ.exports Psyx.exports_spec
  apply List.filterMap_congr
  intro s hs
  have hok := h s hs
  cases s with
  | XDEF x =>
    simp only [Psyx.section_sizes_ok] at hok
    try dsimp only
    rw [hok]
    by_cases hn : x.symbol_name = []
    · simp [hn]
    · simp [hn, List.length_pos.mpr hn]
  | XBSS x =>
    simp only [Psyx.section_sizes_ok] at hok
    try dsimp only
    rw [hok]
    by_cases hn : x.name = []
    · simp [hn]
    · simp [hn, List.length_pos.mpr hn]
  | _ => rfl

/-- Witness for C3: an OBJ with one XDEF "exit" export and the NOP terminator. -/
theorem C3_obj_exports_witness :
    (∀ s ∈ [Psyx.Section.XDEF ⟨14, 0, 0, 4, [101, 120, 105, 116]⟩, Psyx.Section.NOP],
      Psyx.section_sizes_ok s) ∧
    (Psyx.OBJ.mk 2 [Psyx.Section.XDEF ⟨14, 0, 0, 4, [101, 120, 105, 116]⟩,
        Psyx.Section.NOP]).exports =
      Psyx.exports_spec [Psyx.Section.XDEF ⟨14, 0, 0, 4, [101, 120, 105, 116]⟩,
        Psyx.Section.NOP] := by
  have hok : ∀ s ∈ [Psyx.Section.XDEF ⟨14, 0, 0, 4, [101, 120, 105, 116]⟩,
      Psyx.Section.NOP], Psyx.section_sizes_ok s := by
    intro s hs
    rcases List.mem_cons.mp hs with rfl | hs
    · exact rfl
    rcases List.mem_cons.mp hs with rfl | hs
    · exact trivial
    exact absurd hs (List.not_mem_nil _)
  exact ⟨hok, C3_obj_exports _ hok⟩

/-- C1 (code bug): decoding this 36-byte OBJ containing a Def2 (tag 84) section
with a Dim dimension record succeeds and consumes the whole input, but
re-encoding the decoded structure drops the two `Dim` magic bytes (the `Dim`
variants declare `#[br(magic = ...)]`, read-only, so the derived writer never
emits them) and therefore does not reproduce the input byte sequence. -/
theorem C1_roundtrip_def2_bug :
    ((Psyx.decodeOBJ [76, 78, 75, 2, 84, 0, 0, 4, 0, 0, 0, 102, 0, 0, 0, 4, 0, 0, 0,
        0, 0, 8, 95, 112, 104, 121, 115, 97, 100, 114, 4, 46, 101, 111, 115, 0]).map
      (fun p => (Psyx.encodeOBJ p.1, p.2)))
      = some ([76, 78, 75, 2, 84, 0, 0, 4, 0, 0, 0, 102, 0, 0, 0, 4, 0, 0, 0,
        8, 95, 112, 104, 121, 115, 97, 100, 114, 4, 46, 101, 111, 115, 0], []) ∧
    ([76, 78, 75, 2, 84, 0, 0, 4, 0, 0, 0, 102, 0, 0, 0, 4, 0, 0, 0,
        8, 95, 112, 104, 121, 115, 97, 100, 114, 4, 46, 101, 111, 115, 0] : List Nat)
      ≠ [76, 78, 75, 2, 84, 0, 0, 4, 0, 0, 0, 102, 0, 0, 0, 4, 0, 0, 0,
        0, 0, 8, 95, 112, 104, 121, 115, 97, 100, 114, 4, 46, 101, 111, 115, 0] := by
  constructor
  · rfl
  · decide

/-- C9 counterexample: rendering a BSS section with LC_ALL = en_GB.UTF-8
differs from rendering it with an empty environment, so the core display is
not locale-independent. -/
theorem C9_display_locale_counterexample :
    Psyx.sectionDisplay (fun _ => "") (fun _ => "") (some "en_GB.UTF-8") none
        Psyx.Options.default (Psyx.Section.BSS 4)
      ≠ Psyx.sectionDisplay (fun _ => "") (fun _ => "") none none
        Psyx.Options.default (Psyx.Section.BSS 4) := by
  decide

/-- C9 (amended): the rendering of any section other than BSS, and hence of
any OBJ without a BSS section, is independent of the LC_ALL/LANG environment;
a BSS section renders "Uninitialised" exactly when the environment (LC_ALL,
else LANG, else empty) starts with en_GB, and "Uninitialized" otherwise, so
OBJ display does depend on the environment there. -/
theorem C9_display_env_independent_except_bss :
    (∀ (dis : Nat → String) (lossy : List Nat → String)
        (lcAll lang lcAll' lang' : Option String) (opts : Psyx.Options)
        (s : Psyx.Section), Psyx.no_bss s →
      Psyx.sectionDisplay dis lossy lcAll lang opts s
        = Psyx.sectionDisplay dis lossy lcAll' lang' opts s) ∧
    (∀ (dis : Nat → String) (lossy : List Nat → String)
        (lcAll lang lcAll' lang' : Option String) (opts : Psyx.Options)
        (o : Psyx.OBJ), (∀ s ∈ o.sections, Psyx.no_bss s) →
      Psyx.objDisplay dis lossy lcAll lang opts o
        = Psyx.objDisplay dis lossy lcAll' lang' opts o) ∧
    (∀ (dis : Nat → String) (lossy : List Nat → String)
        (lcAll lang : Option String) (opts : Psyx.Options) (size : Nat),
      Psyx.sectionDisplay dis lossy lcAll lang opts (Psyx.Section.BSS size)
        = some ("8 : "
            ++ (if Psyx.is_en_gb lcAll lang then "Uninitialised" else "Uninitialized")
            ++ " data, " ++ toString size ++ " bytes")) :=
  ⟨Psyx.sectionDisplay_env_congr, Psyx.objDisplay_env_congr,
    fun _ _ _ _ _ _ => rfl⟩

/-- Witness for C9's amended statement at concrete inputs. -/
theorem C9_display_env_independent_except_bss_witness :
    (Psyx.no_bss (Psyx.Section.CPU 7) ∧
      Psyx.sectionDisplay (fun _ => "") (fun _ => "") (some "en_GB.UTF-8") none
          Psyx.Options.default (Psyx.Section.CPU 7)
        = Psyx.sectionDisplay (fun _ => "") (fun _ => "") none none
          Psyx.Options.default (Psyx.Section.CPU 7)) ∧
    ((∀ s ∈ [Psyx.Section.CPU 7, Psyx.Section.NOP], Psyx.no_bss s) ∧
      Psyx.objDisplay (fun _ => "") (fun _ => "") (some "en_GB.UTF-8") none
          Psyx.Options.default (Psyx.OBJ.mk 2 [Psyx.Section.CPU 7, Psyx.Section.NOP])
        = Psyx.objDisplay (fun _ => "") (fun _ => "") none none
          Psyx.Options.default (Psyx.OBJ.mk 2 [Psyx.Section.CPU 7, Psyx.Section.NOP])) ∧
    Psyx.sectionDisplay (fun _ => "") (fun _ => "") (some "en_GB.UTF-8") none
        Psyx.Options.default (Psyx.Section.BSS 4)
      = some ("8 : "
          ++ (if Psyx.is_en_gb (some "en_GB.UTF-8") none then "Uninitialised"
              else "Uninitialized") ++ " data, " ++ toString 4 ++ " bytes") := by
  have hno : ∀ s ∈ [Psyx.Section.CPU 7, Psyx.Section.NOP], Psyx.no_bss s := by
    intro s hs
    rcases List.mem_cons.mp hs with rfl | hs
    · exact trivial
    rcases List.mem_cons.mp hs with rfl | hs
    · exact trivial
    exact absurd hs (List.not_mem_nil _)
  exact ⟨⟨trivial,
      C9_display_env_independent_except_bss.1 _ _ _ _ _ _ _ _ trivial⟩,
    ⟨hno, C9_display_env_independent_except_bss.2.1 _ _ _ _ _ _ _ _ hno⟩,
    C9_display_env_independent_except_bss.2.2 _ _ _ _ _ 4⟩

/-- C5 (counterexample to the claimed behaviour): `foo(5)` is not rejected by
the expression parser; it succeeds, yielding the plain symbol `foo` and
leaving `(5)` unconsumed. -/
theorem C5_unknown_call_counterexample :
    Psyx.Link.parse_expression ("foo(5)".toList) =
      Psyx.Link.PRes.ok (Psyx.Link.Expression.Symbol "foo".toList)
        "(5)".toList := by
  decide

/-- C5 (amended): for every identifier (a symbol-first character followed by
symbol-continuation characters) that is not one of the ten function-like
names, immediately followed by `(` and anything else, `parse_expression`
does not report an error: it succeeds with the plain symbol and leaves the
`(` and the rest of the input unconsumed. -/
theorem C5_unknown_call_parses_as_symbol (first : Char) (restId rest : List Char)
    (h1 : Psyx.Link.isSymbolFirst first = true)
    (h2 : ∀ c ∈ restId, Psyx.Link.isSymbolRest c = true)
    (h3 : (first :: restId) ∉ Psyx.Link.function_names) :
    Psyx.Link.parse_expression ((first :: restId) ++ '(' :: rest) =
      Psyx.Link.PRes.ok (Psyx.Link.Expression.Symbol (first :: restId))
        ('(' :: rest) := by
  show Psyx.Link.parse_expressionF
      (4 * ((first :: restId) ++ '(' :: rest).length + 8)
      ((first :: restId) ++ '(' :: rest) = _
  have hlen : 4 * ((first :: restId) ++ '(' :: rest).length + 8 =
      (4 * ((first :: restId) ++ '(' :: rest).length + 5) + 3 := by omega
  rw [hlen]
  exact Psyx.Link.parse_expressionF_symbol_call _ first restId rest h1 h2 h3

/-- Witness for C5's amended statement at the identifier `bar` and input
`bar(7)`. -/
theorem C5_unknown_call_parses_as_symbol_witness :
    Psyx.Link.isSymbolFirst 'b' = true ∧
      (∀ c ∈ ['a', 'r'], Psyx.Link.isSymbolRest c = true) ∧
      ('b' :: ['a', 'r']) ∉ Psyx.Link.function_names ∧
      Psyx.Link.parse_expression (('b' :: ['a', 'r']) ++ '(' :: ['7', ')']) =
        Psyx.Link.PRes.ok (Psyx.Link.Expression.Symbol ('b' :: ['a', 'r']))
          ('(' :: ['7', ')']) :=
  ⟨by decide, by decide, by decide,
    C5_unknown_call_parses_as_symbol 'b' ['a', 'r'] ['7', ')']
      (by decide) (by decide) (by decide)⟩

/-- C4 (counterexample to the claimed behaviour): `EQU` is case-sensitive
(`foo EQU 5` parses to an `Equals` command but `foo equ 5` parses to no
command at all), and the function-like names are lowercase-only
(`sectstart(1)` is a function call but `SECTSTART(1)` parses as the plain
symbol `SECTSTART` with `(1)` left over). -/
theorem C4_keyword_case_counterexample :
    Psyx.Link.parse_line ("foo EQU 5".toList) =
        Psyx.Link.PRes.ok (some (Psyx.Link.Command.Equals "foo".toList
          (Psyx.Link.Expression.Constant 5)), none) [] ∧
      Psyx.Link.parse_line ("foo equ 5".toList) =
        Psyx.Link.PRes.ok (none, none) ("foo equ 5".toList) ∧
      Psyx.Link.parse_expression ("sectstart(1)".toList) =
        Psyx.Link.PRes.ok (Psyx.Link.Expression.Function "sectstart".toList
          (Psyx.Link.Expression.Constant 1)) [] ∧
      Psyx.Link.parse_expression ("SECTSTART(1)".toList) =
        Psyx.Link.PRes.ok (Psyx.Link.Expression.Symbol "SECTSTART".toList)
          ("(1)".toList) := by
  refine ⟨by decide, by decide, by decide, by decide⟩

/-- C4 (amended): the thirteen command keywords matched with `Caseless`
(include, inclib, org, workspace, regs, group, section, alias, unit,
global, xdef, xref, public) are accepted in every letter casing — for each,
any string whose ASCII lower-casing is the keyword parses to the same
command; but the `EQU` keyword of the assignment command is accepted only
in exact uppercase, and the ten function-like names only in exact
lowercase. -/
theorem C4_keyword_case :
    (∀ cs, cs.map Psyx.Link.asciiLower = "include".toList →
      Psyx.Link.parse_command_include (cs ++ (' ' :: '"' :: 'a' :: '"' :: [])) =
        Psyx.Link.PRes.ok (Psyx.Link.Command.Include ['a']) []) ∧
    (∀ cs, cs.map Psyx.Link.asciiLower = "inclib".toList →
      Psyx.Link.parse_command_inclib (cs ++ (' ' :: '"' :: 'a' :: '"' :: [])) =
        Psyx.Link.PRes.ok (Psyx.Link.Command.IncLib ['a']) []) ∧
    (∀ cs, cs.map Psyx.Link.asciiLower = "org".toList →
      Psyx.Link.parse_command_origin (cs ++ (' ' :: '1' :: [])) =
        Psyx.Link.PRes.ok (Psyx.Link.Command.Origin 1) []) ∧
    (∀ cs, cs.map Psyx.Link.asciiLower = "workspace".toList →
      Psyx.Link.parse_command_workspace (cs ++ (' ' :: '1' :: [])) =
        Psyx.Link.PRes.ok (Psyx.Link.Command.Workspace 1) []) ∧
    (∀ cs, cs.map Psyx.Link.asciiLower = "regs".toList →
      Psyx.Link.parse_command_regs
          (cs ++ (' ' :: 'r' :: '1' :: '=' :: '5' :: [])) =
        Psyx.Link.PRes.ok (Psyx.Link.Command.Regs ['r', '1']
          (Psyx.Link.Expression.Constant 5)) []) ∧
    (∀ cs, cs.map Psyx.Link.asciiLower = "group".toList →
      Psyx.Link.parse_command_group ('g' :: ' ' :: cs) =
        Psyx.Link.PRes.ok (Psyx.Link.Command.Group ['g'] []) []) ∧
    (∀ cs, cs.map Psyx.Link.asciiLower = "section".toList →
      Psyx.Link.parse_command_section (cs ++ (' ' :: 's' :: [])) =
        Psyx.Link.PRes.ok (Psyx.Link.Command.Section ['s'] none []) []) ∧
    (∀ cs, cs.map Psyx.Link.asciiLower = "alias".toList →
      Psyx.Link.parse_command_alias ('a' :: ' ' :: (cs ++ (' ' :: 'b' :: []))) =
        Psyx.Link.PRes.ok (Psyx.Link.Command.Alias ['a'] ['b']) []) ∧
    (∀ cs, cs.map Psyx.Link.asciiLower = "unit".toList →
      Psyx.Link.parse_command_unit (cs ++ (' ' :: '1' :: [])) =
        Psyx.Link.PRes.ok (Psyx.Link.Command.Unit 1) []) ∧
    (∀ cs, cs.map Psyx.Link.asciiLower = "global".toList →
      Psyx.Link.parse_command_global (cs ++ (' ' :: 's' :: [])) =
        Psyx.Link.PRes.ok (Psyx.Link.Command.Global [['s']]) []) ∧
    (∀ cs, cs.map Psyx.Link.asciiLower = "xdef".toList →
      Psyx.Link.parse_command_xdef (cs ++ (' ' :: 's' :: [])) =
        Psyx.Link.PRes.ok (Psyx.Link.Command.XDef [['s']]) []) ∧
    (∀ cs, cs.map Psyx.Link.asciiLower = "xref".toList →
      Psyx.Link.parse_command_xref (cs ++ (' ' :: 's' :: [])) =
        Psyx.Link.PRes.ok (Psyx.Link.Command.XRef [['s']]) []) ∧
    (∀ cs, cs.map Psyx.Link.asciiLower = "public".toList →
      Psyx.Link.parse_command_public (cs ++ (' ' :: 'o' :: 'n' :: [])) =
        Psyx.Link.PRes.ok (Psyx.Link.Command.Public true) []) ∧
    Psyx.Link.parse_command_equals ("foo EQU 5".toList) =
      Psyx.Link.PRes.ok (Psyx.Link.Command.Equals "foo".toList
        (Psyx.Link.Expression.Constant 5)) [] ∧
    Psyx.Link.parse_command_equals ("foo equ 5".toList) = Psyx.Link.PRes.back ∧
    Psyx.Link.parse_function_name ("sectstart(".toList) =
      Psyx.Link.PRes.ok ("sectstart".toList) ("(".toList) ∧
    Psyx.Link.parse_function_name ("SECTSTART(".toList) = Psyx.Link.PRes.back :=
  ⟨fun _ h => Psyx.Link.cmd_include_caseless h,
    fun _ h => Psyx.Link.cmd_inclib_caseless h,
    fun _ h => Psyx.Link.cmd_org_caseless h,
    fun _ h => Psyx.Link.cmd_workspace_caseless h,
    fun _ h => Psyx.Link.cmd_regs_caseless h,
    fun _ h => Psyx.Link.cmd_group_caseless h,
    fun _ h => Psyx.Link.cmd_section_caseless h,
    fun _ h => Psyx.Link.cmd_alias_caseless h,
    fun _ h => Psyx.Link.cmd_unit_caseless h,
    fun _ h => Psyx.Link.cmd_global_caseless h,
    fun _ h => Psyx.Link.cmd_xdef_caseless h,
    fun _ h => Psyx.Link.cmd_xref_caseless h,
    fun _ h => Psyx.Link.cmd_public_caseless h,
    by decide, by decide, by decide, by decide⟩

/-- Witness for C4's amended statement: the mixed casing `iNcLuDe` parses as
an `INCLUDE` command. -/
theorem C4_keyword_case_witness :
    Psyx.Link.parse_command_include
        ("iNcLuDe".toList ++ (' ' :: '"' :: 'a' :: '"' :: [])) =
      Psyx.Link.PRes.ok (Psyx.Link.Command.Include ['a']) [] :=
  C4_keyword_case.1 "iNcLuDe".toList (by decide)

set_option maxRecDepth 100000 in
/-- C6: for every pair of binary operators with strictly increasing
precedence, `1 a 2 b 3` parses right-nested as `1 a (2 b 3)`; and for every
single operator, `1 op 2 op 3` parses left-nested as `(1 op 2) op 3`,
i.e. every operator is left-associative under the precedence table. -/
theorem C6_precedence_associativity :
    (∀ a b : Psyx.Link.BinaryOp,
      a.precedence < b.precedence →
      Psyx.Link.parse_expression ('1' :: ' ' :: (a.token ++
          (' ' :: '2' :: ' ' :: (b.token ++ (' ' :: '3' :: []))))) =
        Psyx.Link.PRes.ok (Psyx.Link.Expression.Binary
          (Psyx.Link.Expression.Constant 1) a
          (Psyx.Link.Expression.Binary (Psyx.Link.Expression.Constant 2) b
            (Psyx.Link.Expression.Constant 3))) []) ∧
    (∀ op : Psyx.Link.BinaryOp,
      Psyx.Link.parse_expression ('1' :: ' ' :: (op.token ++
          (' ' :: '2' :: ' ' :: (op.token ++ (' ' :: '3' :: []))))) =
        Psyx.Link.PRes.ok (Psyx.Link.Expression.Binary
          (Psyx.Link.Expression.Binary (Psyx.Link.Expression.Constant 1) op
            (Psyx.Link.Expression.Constant 2)) op
          (Psyx.Link.Expression.Constant 3)) []) := by
  decide

/-- Witness for C6 at the pair `+`, `*` (precedence 9 < 10). -/
theorem C6_precedence_associativity_witness :
    Psyx.Link.BinaryOp.Add.precedence < Psyx.Link.BinaryOp.Mul.precedence ∧
      Psyx.Link.parse_expression ('1' :: ' ' :: (Psyx.Link.BinaryOp.Add.token ++
          (' ' :: '2' :: ' ' :: (Psyx.Link.BinaryOp.Mul.token ++
            (' ' :: '3' :: []))))) =
        Psyx.Link.PRes.ok (Psyx.Link.Expression.Binary
          (Psyx.Link.Expression.Constant 1) Psyx.Link.BinaryOp.Add
          (Psyx.Link.Expression.Binary (Psyx.Link.Expression.Constant 2)
            Psyx.Link.BinaryOp.Mul (Psyx.Link.Expression.Constant 3))) [] :=
  ⟨by decide,
    C6_precedence_associativity.1 Psyx.Link.BinaryOp.Add Psyx.Link.BinaryOp.Mul
      (by decide)⟩
